import Mathlib

/-!
Bulk serialisation of the elastic indexer (`common.go`).

A shallow embedding of the write-strategy decision for transactions
(`prepareSerializedDataForATransaction`), of the batching loop
(`serializeTransactions`) and of the miniblock serialiser
(`serializeBulkMiniBlocks`), of the account serialisers, of the work
dispatcher (`dataDispatcher.go`) and of the document builder, followed by the
properties proved about them. The gas derivation of `processTransactions.go`,
which is known from its tests only, is modelled from the specification and
marked as such.

Conventions of the embedding:
* a Go `string` and a Go `[]byte` holding text are both a Lean `String`;
  `len` is the UTF-8 byte size, `bytes.Buffer.Write` is string append;
* `uint32`/`uint64` values are natural numbers (only compared or printed here);
* a `time.Duration` is an integer count of nanoseconds, with the wrap-around of
  64 bits made explicit where the code adds;
* the results of the successive calls of `Save` on a work item are a list, and
  a loop that has not returned is the result `none`;
* the channel of work items is its buffer, its capacity and the state of the
  goroutine that receives from it; a send that cannot complete in a state is
  the result `none`, and a run of the dispatcher is a sequence of events in
  which the calls of `Add` and the steps of the worker are interleaved;
* a panic of the runtime is an error result that no returned error equals;
* a Go `(value, error)` result is an `Except Error value`; where the code
  returns a nil slice with a nil error, the result is a pair of options;
* a Go map that is iterated is the list of its entries in iteration order;
* calls to the logger have no effect on the results and are left out;
* `encoding/json`, the status constant of the core library and the size
  threshold are not part of the sources and are taken as parameters
  (`Externals`).
-/

namespace Indexer

/-- The error value of a failed call. -/
abbrev Error := String

deriving instance DecidableEq for Except

/-! ## `fmt.Sprintf` -/

/-- An operand handed to `Sprintf`. -/
inductive FmtArg where
  | str (s : String)
  | uint (n : Nat)
  deriving DecidableEq, Repr

/-- Rendering of one operand under one verb: `%s` prints a string operand as it
is and `%d` prints an unsigned integer in base 10. These are the only
verb/operand pairs the program uses; any other pair keeps the verb. -/
def formatVerb : Char → FmtArg → List Char
  | 's', .str s => s.data
  | 'd', .uint n => (Nat.repr n).data
  | v, _ => ['%', v]

/-- The scanning loop of `Sprintf`: plain characters are copied, a `%` followed
by a verb consumes the next operand. -/
def Sprintf.go : List Char → List FmtArg → List Char
  | [], _ => []
  | '%' :: v :: rest, a :: args => formatVerb v a ++ Sprintf.go rest args
  | c :: rest, args => c :: Sprintf.go rest args

/-- The function `fmt.Sprintf(format, args...)`. -/
def Sprintf (format : String) (args : List FmtArg) : String :=
  ⟨Sprintf.go format.data args⟩

/-! ## Documents -/

/-- The document `data.Event`. -/
structure Event where
  Address : String
  Identifier : String
  Topics : List String
  Data : String
  deriving DecidableEq, Repr

/-- The document `data.TxLog`. -/
structure TxLog where
  Address : String
  Events : List Event
  deriving DecidableEq, Repr

/-- The document `data.ScResult` (fields as filled by `convertScResultInDatabaseScr`). -/
structure ScResult where
  Hash : String
  Nonce : Nat
  GasLimit : Nat
  GasPrice : Nat
  Value : String
  Sender : String
  Receiver : String
  RelayerAddr : String
  RelayedValue : String
  Code : String
  Data : String
  PreTxHash : String
  OriginalTxHash : String
  CallType : String
  CodeMetadata : String
  ReturnMessage : String
  deriving DecidableEq, Repr

/-- The document `data.Transaction` (fields as filled by `buildTransaction`, plus
the log and the smart contract results read by the serialiser). -/
structure Transaction where
  Hash : String
  MBHash : String
  Nonce : Nat
  Round : Nat
  Value : String
  Receiver : String
  Sender : String
  ReceiverShard : Nat
  SenderShard : Nat
  GasPrice : Nat
  GasLimit : Nat
  GasUsed : Nat
  Fee : String
  Data : String
  Signature : String
  Timestamp : Int
  Status : String
  Log : TxLog
  SmartContractResults : List ScResult
  ReceiverUserName : List UInt8 := []
  SenderUserName : List UInt8 := []
  ReceiverAddressBytes : List UInt8 := []
  deriving DecidableEq, Repr

/-- The document `data.Miniblock` (its field `Type` is named `MbType` here). -/
structure Miniblock where
  Hash : String
  SenderShardID : Nat
  ReceiverShardID : Nat
  SenderBlockHash : String
  ReceiverBlockHash : String
  MbType : String
  deriving DecidableEq, Repr

/-- What `common.go` uses and the sources do not define: `json.Marshal` at each
type it is called on, the string of `transaction.TxStatusInvalid` and the
constant `bulkSizeThreshold`. -/
structure Externals where
  marshalTx : Transaction → Except Error String
  marshalLog : TxLog → Except Error String
  marshalScResults : List ScResult → Except Error String
  marshalTimestamp : Int → Except Error String
  marshalMiniblock : Miniblock → Except Error String
  txStatusInvalid : String
  bulkSizeThreshold : Nat

/-! ## Write strategy of one transaction -/

/-- The function `isCrossShardDstMe`. -/
def isCrossShardDstMe (tx : Transaction) (selfShardID : Nat) : Bool :=
  tx.SenderShard != tx.ReceiverShard && tx.ReceiverShard == selfShardID

/-- The function `isIntraShardOrInvalid`. -/
def isIntraShardOrInvalid (env : Externals) (tx : Transaction) (selfShardID : Nat) : Bool :=
  (tx.SenderShard == tx.ReceiverShard && tx.ReceiverShard == selfShardID)
    || tx.Status == env.txStatusInvalid

/-- The function `prepareSerializedDataForATransaction`: the action line and the
payload of one transaction, or the error of the first failed marshal. -/
def prepareSerializedDataForATransaction (env : Externals) (tx : Transaction)
    (selfShardID : Nat) (_isMBOfTxInDB : Bool) : Except Error (String × String) :=
  let metaData := Sprintf "\x7b\"update\":\x7b\"_id\":\"%s\", \"_type\": \"_doc\"\x7d\x7d%s"
    [.str tx.Hash, .str "\n"]
  match env.marshalTx tx with
  | .error err => .error err
  | .ok marshaledTx =>
    if isIntraShardOrInvalid env tx selfShardID then
      -- intra-shard or invalid: basic insert
      let meta := Sprintf "\x7b \"index\" : \x7b \"_id\" : \"%s\", \"_type\" : \"%s\" \x7d \x7d%s"
        [.str tx.Hash, .str "_doc", .str "\n"]
      .ok (meta, marshaledTx)
    else if !isCrossShardDstMe tx selfShardID then
      -- cross-shard and the current shard is the source: upsert without updating anything
      let serializedData :=
        Sprintf "\x7b\"script\":\x7b\"source\":\"return\"\x7d,\"upsert\":%s\x7d"
          [.str marshaledTx]
      .ok (metaData, serializedData)
    else
      -- cross-shard and the current shard is the destination: upsert with updating fields
      match env.marshalLog tx.Log with
      | .error err => .error err
      | .ok marshaledLog =>
        match env.marshalScResults tx.SmartContractResults with
        | .error err => .error err
        | .ok scResults =>
          match env.marshalTimestamp tx.Timestamp with
          | .error err => .error err
          | .ok marshaledTimestamp =>
            let serializedData := Sprintf ("\x7b\"script\":\x7b\"source\":\"" ++
              "ctx._source.status = params.status;" ++
              "ctx._source.miniBlockHash = params.miniBlockHash;" ++
              "ctx._source.log = params.log;" ++
              "ctx._source.scResults = params.scResults;" ++
              "ctx._source.timestamp = params.timestamp;" ++
              "ctx._source.gasUsed = params.gasUsed;" ++
              "ctx._source.fee = params.fee;" ++
              "\",\"lang\": \"painless\",\"params\":" ++
              "\x7b\"status\": \"%s\", \"miniBlockHash\": \"%s\", \"log\": %s, \"scResults\": %s, \"timestamp\": %s, \"gasUsed\": %d, \"fee\": \"%s\"\x7d\x7d,\"upsert\":%s\x7d")
              [.str tx.Status, .str tx.MBHash, .str marshaledLog, .str scResults,
               .str marshaledTimestamp, .uint tx.GasUsed, .str tx.Fee, .str marshaledTx]
            .ok (metaData, serializedData)

/-! ## Batching of transactions -/

/-- A Go `map[string]bool`. -/
abbrev BoolMap := String → Option Bool

/-- Indexing a `map[string]bool`: a missing key reads as `false`. -/
def BoolMap.get (m : BoolMap) (key : String) : Bool :=
  (m key).getD false

/-- The result of `make(map[string]bool)`. -/
def BoolMap.empty : BoolMap := fun _ => none

/-- The `for` loop of `serializeTransactions` together with the statements after
it, on the running buffer `buff` and the sealed buffers `buffSlice`.
`bytes.Buffer.Write` always returns a nil error, so its two error branches
are never taken. -/
def serializeTransactions.loop (env : Externals) (selfShardID : Nat) (mbsHashInDB : BoolMap) :
    List Transaction → String → List String → Except Error (List String)
  | [], buff, buffSlice =>
    -- check if the last buffer contains data
    if buff.utf8ByteSize != 0 then .ok (buffSlice ++ [buff]) else .ok buffSlice
  | tx :: rest, buff, buffSlice =>
    let isMBOfTxInDB := mbsHashInDB.get tx.MBHash
    match prepareSerializedDataForATransaction env tx selfShardID isMBOfTxInDB with
    | .error errPrepareTx => .error errPrepareTx
    | .ok (meta, serializedData) =>
      -- append a newline for each element
      let serializedData := serializedData ++ "\n"
      let buffLenWithCurrentTx := buff.utf8ByteSize + meta.utf8ByteSize + serializedData.utf8ByteSize
      if buffLenWithCurrentTx > env.bulkSizeThreshold && buff.utf8ByteSize != 0 then
        serializeTransactions.loop env selfShardID mbsHashInDB rest
          (("" ++ meta) ++ serializedData) (buffSlice ++ [buff])
      else
        serializeTransactions.loop env selfShardID mbsHashInDB rest
          ((buff ++ meta) ++ serializedData) buffSlice

/-- The function `serializeTransactions`; its third parameter is unused. -/
def serializeTransactions (env : Externals) (transactions : List Transaction)
    (selfShardID : Nat)
    (_getAlreadyIndexedItems : List String → String → Except Error BoolMap)
    (mbsHashInDB : BoolMap) : Except Error (List String) :=
  serializeTransactions.loop env selfShardID mbsHashInDB transactions "" []

/-! ## Miniblocks -/

/-- The constant `miniblocksIndex`. -/
def miniblocksIndex : String := "miniblocks"

/-- The function `prepareBufferMiniblocks`. -/
def prepareBufferMiniblocks (buff meta serializedData : String) : String :=
  -- append a newline for each element
  let serializedData := serializedData ++ "\n"
  (buff ++ meta) ++ serializedData

/-- One iteration of the `for` loop of `serializeBulkMiniBlocks` on the buffer `buff`. -/
def serializeBulkMiniBlocks.step (env : Externals) (hdrShardID : Nat) (existsInDb : BoolMap)
    (buff : String) (mb : Miniblock) : String :=
  if !existsInDb.get mb.Hash then
    -- insert miniblock in database
    let meta := Sprintf "\x7b \"index\" : \x7b \"_id\" : \"%s\", \"_type\" : \"%s\" \x7d \x7d%s"
      [.str mb.Hash, .str "_doc", .str "\n"]
    match env.marshalMiniblock mb with
    | .error _ => buff
    | .ok serializedData => prepareBufferMiniblocks buff meta serializedData
  else
    -- update miniblock
    let meta := Sprintf "\x7b \"update\" : \x7b \"_id\" : \"%s\" \x7d \x7d%s" [.str mb.Hash, .str "\n"]
    if hdrShardID == mb.SenderShardID then
      -- update sender block hash
      prepareBufferMiniblocks buff meta
        (Sprintf "\x7b \"doc\" : \x7b \"senderBlockHash\" : \"%s\" \x7d \x7d" [.str mb.SenderBlockHash])
    else
      -- update receiver block hash
      prepareBufferMiniblocks buff meta
        (Sprintf "\x7b \"doc\" : \x7b \"receiverBlockHash\" : \"%s\" \x7d \x7d"
          [.str mb.ReceiverBlockHash])

/-- The function `serializeBulkMiniBlocks`. -/
def serializeBulkMiniBlocks (env : Externals) (hdrShardID : Nat) (bulkMbs : List Miniblock)
    (getAlreadyIndexedItems : List String → String → Except Error BoolMap) :
    String × BoolMap :=
  let mbsHashes := bulkMbs.map (fun mb => mb.Hash)
  match getAlreadyIndexedItems mbsHashes miniblocksIndex with
  | .error _ => ("", BoolMap.empty)
  | .ok existsInDb =>
    (bulkMbs.foldl (serializeBulkMiniBlocks.step env hdrShardID existsInDb) "", existsInDb)

/-! ## Expected shapes of the bulk lines -/

/-- The action line `{ "index" : { "_id" : "<id>", "_type" : "_doc" } }` with its newline. -/
def indexActionLine (id : String) : String :=
  "\x7b \"index\" : \x7b \"_id\" : \"" ++ id ++ "\", \"_type\" : \"_doc\" \x7d \x7d\n"

/-- The action line `{"update":{"_id":"<id>", "_type": "_doc"}}` with its newline. -/
def updateActionLine (id : String) : String :=
  "\x7b\"update\":\x7b\"_id\":\"" ++ id ++ "\", \"_type\": \"_doc\"\x7d\x7d\n"

/-- The payload `{"script":{"source":"return"},"upsert":<doc>}`: a script that
returns at once, and the full document as upsert value. -/
def noOpUpsertPayload (doc : String) : String :=
  "\x7b\"script\":\x7b\"source\":\"return\"\x7d,\"upsert\":" ++ doc ++ "\x7d"

/-- The fields of the stored document that the destination shard overwrites. -/
def patchedFields : List String :=
  ["status", "miniBlockHash", "log", "scResults", "timestamp", "gasUsed", "fee"]

/-- The script statement that copies the parameter `field` into the stored document. -/
def assignField (field : String) : String :=
  "ctx._source." ++ field ++ " = params." ++ field ++ ";"

/-- The payload of the field patch: a script made of one assignment per patched
field, the parameters read by them, and the full document as upsert value. -/
def fieldPatchPayload (status miniBlockHash log scResults timestamp : String) (gasUsed : Nat)
    (fee doc : String) : String :=
  "\x7b\"script\":\x7b\"source\":\"" ++ String.join (patchedFields.map assignField) ++
  "\",\"lang\": \"painless\",\"params\":\x7b" ++
  "\"status\": \"" ++ status ++ "\", " ++
  "\"miniBlockHash\": \"" ++ miniBlockHash ++ "\", " ++
  "\"log\": " ++ log ++ ", " ++
  "\"scResults\": " ++ scResults ++ ", " ++
  "\"timestamp\": " ++ timestamp ++ ", " ++
  "\"gasUsed\": " ++ Nat.repr gasUsed ++ ", " ++
  "\"fee\": \"" ++ fee ++ "\"\x7d\x7d,\"upsert\":" ++ doc ++ "\x7d"

/-! ## The dispatcher (`dataDispatcher.go`) -/

/-- The value of a 64-bit signed integer after wrap-around. -/
def wrapInt64 (x : Int) : Int := (x + 2 ^ 63) % 2 ^ 64 - 2 ^ 63

/-- The constant `time.Second`: a `time.Duration` is a 64-bit signed count of nanoseconds. -/
def timeSecond : Int := 1000000000

/-- The constant `time.Minute`. -/
def timeMinute : Int := 60 * timeSecond

/-- The constant `durationBetweenErrorRetry`. -/
def durationBetweenErrorRetry : Int := timeSecond * 3

/-- The constant `backOffTime`. -/
def backOffTime : Int := timeSecond * 10

/-- The constant `maxBackOff`. -/
def maxBackOff : Int := timeMinute * 5

/-- The error value `ErrNegativeCacheSize`; it is declared outside the given
sources and only its identity is used. -/
def ErrNegativeCacheSize : Error := "ErrNegativeCacheSize"

/-- A non-nil error returned by `Save`, with the answer of `errors.Is(err, ErrBackOff)`. -/
structure SaveError where
  message : String
  isBackOff : Bool
  deriving DecidableEq, Repr

/-- The test `errors.Is(err, ErrBackOff)` on what `Save` returned (`none` is a nil error). -/
def errorsIsErrBackOff : Option SaveError → Bool
  | none => false
  | some e => e.isBackOff

/-- The goroutine of `startWorker`, which receives from the channel: before its
`select` (not yet running, or at the top of its loop), blocked in its `select`
on an empty channel, inside `doWork` on the item it received, or returned after
its context was cancelled. -/
inductive WorkerStatus (Item : Type) where
  | ready
  | waiting
  | working (wi : Item)
  | stopped
  deriving DecidableEq, Repr

/-- The struct `dataDispatcher`: the back-off duration and the channel of work
items, given by the items it buffers (oldest first), its capacity and the state
of the goroutine that receives from it. The cancel function of the worker is
not part of the model. -/
structure dataDispatcher (Item : Type) where
  backOffTime : Int
  chanWorkItems : List Item
  chanCapacity : Nat
  worker : WorkerStatus Item := .ready
  deriving DecidableEq, Repr

/-- The largest capacity that `make(chan workItems.WorkItemHandler, n)` accepts
on linux/amd64: the items are interface values of 16 bytes and the buffer may
take `2 ^ 48` bytes less a channel header of 96 bytes, which is
`2 ^ 44 - 6` items. -/
def maxChanCapacity : Int := 17592186044410

/-- The failure of `make` on a channel size that the runtime does not grant:
the panic `makechan: size out of range` (below the limit of that check, on a
machine short of memory, the runtime stops with a fatal error instead). It is
modelled as an error result that no returned error equals. -/
def panicMakechan : Error := "panic: makechan: size out of range"

/-- The function `NewDataDispatcher`. The argument `chanLimit` is the largest
capacity that the runtime grants for the channel: `maxChanCapacity` unless
given, which is the limit of the range check of `make`, and less on a machine
short of memory; above it `make` does not return a channel. The worker of the
new dispatcher has not received yet. -/
def NewDataDispatcher {Item : Type} (cacheSize : Int) (chanLimit : Int := maxChanCapacity) :
    Except Error (dataDispatcher Item) :=
  if cacheSize < 0 then .error ErrNegativeCacheSize
  else if cacheSize > chanLimit then .error panicMakechan
  else .ok { backOffTime := 0, chanWorkItems := [], chanCapacity := cacheSize.toNat }

/-- The method `Add`. A nil item is `none`. The send on the channel hands the
item to the worker when the worker is blocked in its `select`, and otherwise
appends it to the buffer when the buffer has room; when neither is the case the
send does not complete in this state, which is the result `none`. -/
def dataDispatcher.Add {Item : Type} (d : dataDispatcher Item) (item : Option Item) :
    Option (dataDispatcher Item) :=
  match item with
  | none => some d
  | some wi =>
    match d.worker with
    | .waiting => some { d with worker := .working wi }
    | _ =>
      if d.chanWorkItems.length < d.chanCapacity then
        some { d with chanWorkItems := d.chanWorkItems ++ [wi] }
      else none

/-- The method `increaseBackOffTime`. -/
def dataDispatcher.increaseBackOffTime {Item : Type} (d : dataDispatcher Item) :
    dataDispatcher Item :=
  if d.backOffTime = 0 then
    { d with backOffTime := Indexer.backOffTime }
  else if d.backOffTime ≥ maxBackOff then
    d
  else
    { d with backOffTime := wrapInt64 (d.backOffTime + Int.tdiv d.backOffTime 5) }

/-- One pass through the body of the `for` loop of `doWork`, for the result
`err` of `wi.Save()`: the dispatcher afterwards, the duration slept if any, and
whether the loop goes on (`continue`) or `doWork` returns. -/
def dataDispatcher.doWorkPass {Item : Type} (d : dataDispatcher Item) (err : Option SaveError) :
    dataDispatcher Item × Option Int × Bool :=
  if errorsIsErrBackOff err then
    let d1 := d.increaseBackOffTime
    (d1, some d1.backOffTime, true)
  else
    let d1 := { d with backOffTime := 0 }
    if err.isSome then (d1, some durationBetweenErrorRetry, true)
    else (d1, none, false)

/-- What is observed of a call of `doWork` that returned: the dispatcher
afterwards, how many times `Save` was invoked and the durations slept. -/
structure WorkRun (Item : Type) where
  dispatcher : dataDispatcher Item
  saveCalls : Nat
  sleeps : List Int
  deriving DecidableEq, Repr

/-- The `for` loop of `doWork`. The list holds the results of the successive
calls of `wi.Save()`; the result is `none` when the list is used up while the
loop is still running. -/
def dataDispatcher.doWorkLoop {Item : Type} :
    List (Option SaveError) → dataDispatcher Item → Nat → List Int → Option (WorkRun Item)
  | [], _, _, _ => none
  | err :: rest, d, calls, sleeps =>
    match d.doWorkPass err with
    | (d1, slept, true) => dataDispatcher.doWorkLoop rest d1 (calls + 1) (sleeps ++ slept.toList)
    | (d1, _, false) => some { dispatcher := d1, saveCalls := calls + 1, sleeps := sleeps }

/-- The method `doWork` on a work item whose successive calls of `Save` return `saves`. -/
def dataDispatcher.doWork {Item : Type} (d : dataDispatcher Item)
    (saves : List (Option SaveError)) : Option (WorkRun Item) :=
  dataDispatcher.doWorkLoop saves d 0 []

/-- The `select` of `startWorker` while the context is not cancelled: the
worker at the top of its loop receives the oldest item of the channel and enters
`doWork` on it, or blocks when the channel is empty. -/
def dataDispatcher.startWorkerSelect {Item : Type} (d : dataDispatcher Item) :
    dataDispatcher Item :=
  match d.worker with
  | .ready =>
    match d.chanWorkItems with
    | [] => { d with worker := .waiting }
    | wi :: rest => { d with chanWorkItems := rest, worker := .working wi }
  | _ => d

/-- The `select` of `startWorker` once the context is cancelled: the worker at
the top of its loop, or blocked in the `select`, returns. -/
def dataDispatcher.startWorkerDone {Item : Type} (d : dataDispatcher Item) :
    dataDispatcher Item :=
  match d.worker with
  | .ready => { d with worker := .stopped }
  | .waiting => { d with worker := .stopped }
  | _ => d

/-- One call of `wi.Save()` by the worker inside `doWork`, with its result
`err`, and the pass of the loop of `doWork` that follows: the worker stays in
`doWork` on a `continue` and is back at the top of its loop when `doWork`
returns. -/
def dataDispatcher.workerSave {Item : Type} (d : dataDispatcher Item)
    (err : Option SaveError) : dataDispatcher Item :=
  match d.worker with
  | .working _ =>
    match d.doWorkPass err with
    | (d1, _, true) => d1
    | (d1, _, false) => { d1 with worker := .ready }
  | _ => d

/-- The states of a dispatcher: the one built by `NewDataDispatcher`, and what
`Add`, the steps of the worker and each pass of `doWork` make of a state. -/
inductive Reachable {Item : Type} : dataDispatcher Item → Prop where
  | new (cacheSize chanLimit : Int) (d : dataDispatcher Item) :
      NewDataDispatcher cacheSize chanLimit = .ok d → Reachable d
  | add (d d1 : dataDispatcher Item) (item : Option Item) :
      Reachable d → d.Add item = some d1 → Reachable d1
  | select (d : dataDispatcher Item) :
      Reachable d → Reachable d.startWorkerSelect
  | done (d : dataDispatcher Item) :
      Reachable d → Reachable d.startWorkerDone
  | save (d : dataDispatcher Item) (err : Option SaveError) :
      Reachable d → Reachable (d.workerSave err)
  | pass (d : dataDispatcher Item) (err : Option SaveError) :
      Reachable d → Reachable (d.doWorkPass err).1

/-- The item on which the worker is inside `doWork`, if any. -/
def dataDispatcher.workingItems {Item : Type} (d : dataDispatcher Item) : List Item :=
  match d.worker with
  | .working wi => [wi]
  | _ => []

/-- The items that were sent on the channel and on which `doWork` has not
returned: the item the worker holds, then the items in the buffer. -/
def dataDispatcher.pendingItems {Item : Type} (d : dataDispatcher Item) : List Item :=
  d.workingItems ++ d.chanWorkItems

/-- The range of the back-off in nanoseconds: zero, or between the base of 10 s
and six fifths of the ceiling of 5 min. -/
def BackOffInRange (b : Int) : Prop :=
  b = 0 ∨ (10000000000 ≤ b ∧ b ≤ 360000000000)

/-! ## Document builder (`common.go`) -/

/-- The function `stringValueToBigInt`; `setString s base` stands for
`big.NewInt(0).SetString(s, base)`, with `none` when the library reports failure. -/
def stringValueToBigInt (setString : String → Nat → Option Int) (strValue : String) : Int :=
  match setString strValue 10 with
  | some value => value
  | none => 0

/-- The ledger transaction `transaction.Transaction` of the core library,
with the fields read by `buildTransaction`. -/
structure RawTransaction where
  Nonce : Nat
  Value : Int
  RcvAddr : List UInt8
  SndAddr : List UInt8
  GasPrice : Nat
  GasLimit : Nat
  Data : String
  Signature : List UInt8
  RcvUserName : List UInt8
  SndUserName : List UInt8
  deriving DecidableEq, Repr

/-- The ledger miniblock `block.MiniBlock` of the core library, with its two shard ids. -/
structure RawMiniBlock where
  SenderShardID : Nat
  ReceiverShardID : Nat
  deriving DecidableEq, Repr

/-- The two getters of `coreData.HeaderHandler` read by `buildTransaction`. -/
structure HeaderHandler where
  GetRound : Nat
  GetTimeStamp : Nat
  deriving DecidableEq, Repr

/-- The struct `commonProcessor`: each collaborator is given by the methods
that are called on it. -/
structure commonProcessor where
  shardCoordinatorComputeId : List UInt8 → Nat
  addressPubkeyConverterEncode : List UInt8 → String
  validatorPubkeyConverterEncode : List UInt8 → String
  txFeeCalculatorComputeGasLimit : RawTransaction → Nat
  txFeeCalculatorComputeTxFeeBasedOnGasUsed : RawTransaction → Nat → Int

/-- One hexadecimal digit, in lower case. -/
def hexDigit (n : Nat) : Char :=
  if n < 10 then Char.ofNat (48 + n) else Char.ofNat (87 + n)

/-- The function `hex.EncodeToString`. -/
def hexEncodeToString (bytes : List UInt8) : String :=
  ⟨(bytes.map (fun b => [hexDigit (b.toNat / 16), hexDigit (b.toNat % 16)])).flatten⟩

/-- The method `String` of a `big.Int`: its rendering in base 10. -/
def bigIntString (n : Int) : String := toString n

/-- The method `buildTransaction`. -/
def commonProcessor.buildTransaction (cm : commonProcessor) (tx : RawTransaction)
    (txHash mbHash : List UInt8) (mb : RawMiniBlock) (header : HeaderHandler)
    (txStatus : String) : Transaction :=
  let gasUsed := cm.txFeeCalculatorComputeGasLimit tx
  let fee := cm.txFeeCalculatorComputeTxFeeBasedOnGasUsed tx gasUsed
  { Hash := hexEncodeToString txHash
    MBHash := hexEncodeToString mbHash
    Nonce := tx.Nonce
    Round := header.GetRound
    Value := bigIntString tx.Value
    Receiver := cm.addressPubkeyConverterEncode tx.RcvAddr
    Sender := cm.addressPubkeyConverterEncode tx.SndAddr
    ReceiverShard := cm.shardCoordinatorComputeId tx.RcvAddr
    SenderShard := mb.SenderShardID
    GasPrice := tx.GasPrice
    GasLimit := tx.GasLimit
    Data := tx.Data
    Signature := hexEncodeToString tx.Signature
    Timestamp := wrapInt64 header.GetTimeStamp
    Status := txStatus
    GasUsed := gasUsed
    Fee := bigIntString fee
    ReceiverUserName := tx.RcvUserName
    SenderUserName := tx.SndUserName
    ReceiverAddressBytes := tx.RcvAddr
    Log := ⟨"", []⟩
    SmartContractResults := [] }

/-! ## Accounts (`common.go`) -/

/-- The function `prepareSerializedAccountInfo`, for any type of account handed
to `json.Marshal`. A nil byte slice is the empty string and a nil error is `none`. -/
def prepareSerializedAccountInfo {Account : Type} (marshal : Account → Except Error String)
    (address : String) (account : Account) : String × String × Option Error :=
  let meta := Sprintf "\x7b \"index\" : \x7b \"_id\" : \"%s\" \x7d \x7d%s" [.str address, .str "\n"]
  match marshal account with
  | .error err => ("", "", some err)
  | .ok serializedData => (meta, serializedData, none)

/-- The function `prepareSerializedAccountBalanceHistory`. -/
def prepareSerializedAccountBalanceHistory {Account : Type}
    (marshal : Account → Except Error String) (address : String) (account : Account) :
    String × String × Option Error :=
  let meta := Sprintf "\x7b \"index\" : \x7b \"_id\" : \"%s\" \x7d \x7d%s" [.str address, .str "\n"]
  match marshal account with
  | .error err => ("", "", some err)
  | .ok serializedData => (meta, serializedData, none)

/-- The `for` loop of `serializeAccounts` and the statements after it. The map
is the list of its entries in the order of the iteration. The result is the
slice of buffers, `none` when it is nil, and the error, `none` when it is nil.
The variable `err` only ever receives the nil error of `bytes.Buffer.Write`, so
`return nil, err` returns a nil error. -/
def serializeAccounts.loop {Account : Type} (env : Externals)
    (marshal : Account → Except Error String) :
    List (String × Account) → String → List String → Option (List String) × Option Error
  | [], buff, buffSlice =>
    -- check if the last buffer contains data
    if buff.utf8ByteSize != 0 then (some (buffSlice ++ [buff]), none) else (some buffSlice, none)
  | (address, acc) :: rest, buff, buffSlice =>
    match prepareSerializedAccountInfo marshal address acc with
    | (meta, serializedData, _errPrepareAcc) =>
      if meta.utf8ByteSize == 0 then
        (none, none)
      else
        -- append a newline for each element
        let serializedData := serializedData ++ "\n"
        let buffLenWithCurrentAcc :=
          buff.utf8ByteSize + meta.utf8ByteSize + serializedData.utf8ByteSize
        if buffLenWithCurrentAcc > env.bulkSizeThreshold && buff.utf8ByteSize != 0 then
          serializeAccounts.loop env marshal rest
            (("" ++ meta) ++ serializedData) (buffSlice ++ [buff])
        else
          serializeAccounts.loop env marshal rest ((buff ++ meta) ++ serializedData) buffSlice

/-- The function `serializeAccounts`. -/
def serializeAccounts {Account : Type} (env : Externals)
    (marshal : Account → Except Error String) (accounts : List (String × Account)) :
    Option (List String) × Option Error :=
  serializeAccounts.loop env marshal accounts "" []

/-- The `for` loop of `serializeAccountsHistory` and the statements after it,
with the conventions of `serializeAccounts.loop`. -/
def serializeAccountsHistory.loop {Account : Type} (env : Externals)
    (marshal : Account → Except Error String) :
    List (String × Account) → String → List String → Option (List String) × Option Error
  | [], buff, buffSlice =>
    -- check if the last buffer contains data
    if buff.utf8ByteSize != 0 then (some (buffSlice ++ [buff]), none) else (some buffSlice, none)
  | (address, acc) :: rest, buff, buffSlice =>
    match prepareSerializedAccountBalanceHistory marshal address acc with
    | (meta, serializedData, errPrepareAcc) =>
      if errPrepareAcc.isSome then
        (none, none)
      else
        -- append a newline for each element
        let serializedData := serializedData ++ "\n"
        let buffLenWithCurrentAccountHistory :=
          buff.utf8ByteSize + meta.utf8ByteSize + serializedData.utf8ByteSize
        if buffLenWithCurrentAccountHistory > env.bulkSizeThreshold
            && buff.utf8ByteSize != 0 then
          serializeAccountsHistory.loop env marshal rest
            (("" ++ meta) ++ serializedData) (buffSlice ++ [buff])
        else
          serializeAccountsHistory.loop env marshal rest
            ((buff ++ meta) ++ serializedData) buffSlice

/-- The function `serializeAccountsHistory`. -/
def serializeAccountsHistory {Account : Type} (env : Externals)
    (marshal : Account → Except Error String) (accounts : List (String × Account)) :
    Option (List String) × Option Error :=
  serializeAccountsHistory.loop env marshal accounts "" []

/-! ## The worker of the dispatcher -/

/-- What happens to a dispatcher: a caller invokes `Add`; the worker performs
the `select` of `startWorker`; the worker, inside `doWork`, invokes `Save`,
which returns `err`; or the worker finds its context cancelled. -/
inductive DispatcherEvent (Item : Type) where
  | add (item : Option Item)
  | select
  | save (err : Option SaveError)
  | done
  deriving DecidableEq, Repr

/-- What is observed along a run of a dispatcher: the dispatcher, the items
enqueued by `Add`, the items on which `doWork` has returned, and the items on
which `Save` was invoked, one entry for each invocation, all in order of time. -/
structure DispatcherRun (Item : Type) where
  dispatcher : dataDispatcher Item
  enqueued : List Item
  handled : List Item
  saveLog : List Item
  deriving DecidableEq, Repr

/-- A run of a dispatcher and its worker over a sequence of events, the calls
of `Add` interleaved with the steps of the worker. The result is `none` when an
event cannot take place in the state it meets: a send that does not complete, a
`select` of a worker that is not at the top of its loop, or a call of `Save` by
a worker that is not inside `doWork`. -/
def runDispatcher {Item : Type} :
    List (DispatcherEvent Item) → DispatcherRun Item → Option (DispatcherRun Item)
  | [], run => some run
  | .add item :: events, run =>
    match run.dispatcher.Add item with
    | none => none
    | some d1 =>
      runDispatcher events
        { run with dispatcher := d1, enqueued := run.enqueued ++ item.toList }
  | .select :: events, run =>
    match run.dispatcher.worker with
    | .ready =>
      runDispatcher events { run with dispatcher := run.dispatcher.startWorkerSelect }
    | _ => none
  | .done :: events, run =>
    runDispatcher events { run with dispatcher := run.dispatcher.startWorkerDone }
  | .save err :: events, run =>
    match run.dispatcher.worker with
    | .working wi =>
      runDispatcher events
        { dispatcher := run.dispatcher.workerSave err
          enqueued := run.enqueued
          handled :=
            if (run.dispatcher.doWorkPass err).2.2 then run.handled else run.handled ++ [wi]
          saveLog := run.saveLog ++ [wi] }
    | _ => none

/-- The items that the calls of `Add` in a sequence of events hand over, nil
items left out, in order. -/
def addedItems {Item : Type} : List (DispatcherEvent Item) → List Item
  | [] => []
  | .add item :: events => item.toList ++ addedItems events
  | _ :: events => addedItems events

/-- The order of a run: the handled items, then the item the worker holds, then
the buffer of the channel are the enqueued items; the worker is blocked in its
`select` on an empty buffer only; and the calls of `Save` come in one block for
each handled item, in the order of the handling, followed by the calls made so
far on the item the worker holds. -/
def DispatcherRun.Ordered {Item : Type} (run : DispatcherRun Item) : Prop :=
  run.handled ++ run.dispatcher.pendingItems = run.enqueued ∧
  (run.dispatcher.worker = .waiting → run.dispatcher.chanWorkItems = []) ∧
  ∃ (counts : List Nat) (m : Nat), counts.length = run.handled.length ∧
    (∀ n ∈ counts, 1 ≤ n) ∧
    run.saveLog = (List.zipWith List.replicate counts run.handled).flatten
      ++ (run.dispatcher.workingItems.map (List.replicate m)).flatten

/-! ## Gas used of the documents (`processTransactions.go`, from the spec) -/

/-- Modelled from the spec: the receipt `receipt.Receipt` of the core library,
which is not among the sources; section 4.2 names its value, its data marker
and the transaction it references. -/
structure Receipt where
  Value : Int
  Data : String
  TxHash : List UInt8
  deriving DecidableEq, Repr

/-- Modelled from the spec: the function `getGasUsedFromReceipt` of
`processTransactions.go`, which is not among the sources (only its tests are).
By section 4.2, step 2, a receipt that carries the refund marker reduces the
gas used by `receipt.Value / tx.GasPrice`, counted from the gas limit as in
`TestGetGasUsedFromReceipt_RefundedGas`. What a receipt with another marker
gives is not fixed by the spec and is the argument `otherReceipt`. -/
def getGasUsedFromReceipt (refundGasMessage : String)
    (otherReceipt : Receipt → Transaction → Int) (receipt : Receipt) (tx : Transaction) : Int :=
  if receipt.Data = refundGasMessage then
    (tx.GasLimit : Int) - receipt.Value / (tx.GasPrice : Int)
  else otherReceipt receipt tx

/-- Modelled from the spec: the families of miniblocks of section 4.2, step 1. -/
inductive MiniBlockFamily where
  | ordinary
  | smartContractResult
  | reward
  | receipt
  | invalid
  deriving DecidableEq, Repr

/-- Modelled from the spec: a miniblock of the body of a block, with its shards,
its family and the hashes of its transactions. -/
structure BodyMiniBlock where
  shards : RawMiniBlock
  family : MiniBlockFamily
  TxHashes : List (List UInt8)
  deriving DecidableEq, Repr

/-- Modelled from the spec: the pool of section 3, with the families that take
part in the gas derivation: ordinary transactions and invalid transactions by
hash, and the receipts. -/
structure Pool where
  txs : List (List UInt8 × RawTransaction)
  invalid : List (List UInt8 × RawTransaction)
  receipts : List Receipt
  deriving DecidableEq, Repr

/-- Modelled from the spec: the receipts that reference a document set its gas
used (section 4.2, step 2). -/
def applyReceipts (refundGasMessage : String) (otherReceipt : Receipt → Transaction → Int)
    (receipts : List Receipt) (doc : Transaction) : Transaction :=
  receipts.foldl (fun d receipt =>
    if hexEncodeToString receipt.TxHash = d.Hash then
      { d with GasUsed := (getGasUsedFromReceipt refundGasMessage otherReceipt receipt d).toNat }
    else d) doc

/-- Modelled from the spec: the function `prepareTransactionsForDatabase` of
`processTransactions.go`, which is not among the sources (only its tests are),
restricted to the gas derivation of section 4.2, steps 1 and 2, for ordinary
and invalid transactions. Each transaction of an ordinary or invalid miniblock
found in the pool gets the document of `buildTransaction`, with gas used and
fee from the fee oracle; receipts that reference it set its gas used; and for
an invalid transaction the gas used is pinned to the full gas limit. The hash
of a miniblock and the status of an ordinary transaction are arguments. -/
def prepareTransactionsForDatabase (cm : commonProcessor) (env : Externals)
    (refundGasMessage : String) (otherReceipt : Receipt → Transaction → Int)
    (ordinaryStatus : String) (mbHashOf : BodyMiniBlock → List UInt8)
    (body : List BodyMiniBlock) (header : HeaderHandler) (pool : Pool) : List Transaction :=
  (body.map (fun mb =>
    match mb.family with
    | .ordinary =>
      mb.TxHashes.filterMap (fun hash =>
        (pool.txs.lookup hash).map (fun tx =>
          applyReceipts refundGasMessage otherReceipt pool.receipts
            (cm.buildTransaction tx hash (mbHashOf mb) mb.shards header ordinaryStatus)))
    | .invalid =>
      mb.TxHashes.filterMap (fun hash =>
        (pool.invalid.lookup hash).map (fun tx =>
          let doc := applyReceipts refundGasMessage otherReceipt pool.receipts
            (cm.buildTransaction tx hash (mbHashOf mb) mb.shards header env.txStatusInvalid)
          { doc with GasUsed := doc.GasLimit }))
    | _ => [])).flatten

/-! ## Concrete inputs -/

/-- A sample instance of the external parts: a marshaller of transactions that
fails on a transaction without hash, the invalid status `"invalid"` and a
threshold of 100 bytes. -/
def sampleEnv : Externals where
  marshalTx := fun tx =>
    if tx.Hash = "" then .error "json: unsupported value"
    else .ok ("\x7b\"hash\":\"" ++ tx.Hash ++ "\"\x7d")
  marshalLog := fun _ => .ok "null"
  marshalScResults := fun _ => .ok "null"
  marshalTimestamp := fun _ => .ok "0"
  marshalMiniblock := fun mb =>
    if mb.Hash = "" then .error "json: unsupported value"
    else .ok ("\x7b\"hash\":\"" ++ mb.Hash ++ "\"\x7d")
  txStatusInvalid := "invalid"
  bulkSizeThreshold := 100

/-- A transaction with the given hash, status and shards, every other field empty. -/
def sampleTx (hash status : String) (senderShard receiverShard : Nat) : Transaction where
  Hash := hash
  MBHash := "mb"
  Nonce := 0
  Round := 0
  Value := "0"
  Receiver := ""
  Sender := ""
  ReceiverShard := receiverShard
  SenderShard := senderShard
  GasPrice := 0
  GasLimit := 0
  GasUsed := 7
  Fee := "0"
  Data := ""
  Signature := ""
  Timestamp := 0
  Status := status
  Log := ⟨"", []⟩
  SmartContractResults := []

/-- Three transactions that are plainly indexed on shard 1: two intra-shard ones
and an invalid one. -/
def sampleTxs : List Transaction :=
  [sampleTx "a1" "success" 1 1, sampleTx "a2" "success" 1 1, sampleTx "a3" "invalid" 0 1]

/-- The action line expected for the members of `sampleTxs`. -/
def sampleMeta (tx : Transaction) : String := indexActionLine tx.Hash

/-- The payload expected for the members of `sampleTxs`. -/
def samplePayload (tx : Transaction) : String := "\x7b\"hash\":\"" ++ tx.Hash ++ "\"\x7d"

/-- A miniblock with the given hash and sender shard, sent to shard 1. -/
def sampleMb (hash : String) (senderShard : Nat) : Miniblock where
  Hash := hash
  SenderShardID := senderShard
  ReceiverShardID := 1
  SenderBlockHash := "sb"
  ReceiverBlockHash := "rb"
  MbType := "TxBlock"

/-- An existence map in which only the miniblock `m1` is already indexed. -/
def sampleExists : BoolMap := fun key => if key = "m1" then some true else none

/-- An existence oracle that answers with `sampleExists`. -/
def sampleOracle : List String → String → Except Error BoolMap :=
  fun _ _ => .ok sampleExists

/-- A fresh dispatcher of string items with a queue of capacity 2. -/
def sampleDispatcher : dataDispatcher String :=
  { backOffTime := 0, chanWorkItems := [], chanCapacity := 2 }

/-- A result of `Save` that carries the back-off signal. -/
def sampleBackOff : SaveError := { message := "back off", isBackOff := true }

/-- A result of `Save` that is an error without the back-off signal. -/
def sampleFailure : SaveError := { message := "connection refused", isBackOff := false }

/-- The value of a run of decimal digits, `none` on an empty run or a foreign character. -/
def sampleDigits (cs : List Char) : Option Nat :=
  if cs = [] then none
  else cs.foldl (fun acc c => acc.bind (fun a =>
    if c.isDigit then some (a * 10 + (c.toNat - 48)) else none)) (some 0)

/-- A sample parser of integers in base 10: an optional sign and at least one digit. -/
def sampleSetString (s : String) (_base : Nat) : Option Int :=
  match s.data with
  | '-' :: cs => (sampleDigits cs).map (fun n => -(n : Int))
  | '+' :: cs => (sampleDigits cs).map (fun n => (n : Int))
  | cs => (sampleDigits cs).map (fun n => (n : Int))

/-- A sample processor whose shard coordinator puts every address in shard 2. -/
def sampleProcessor : commonProcessor where
  shardCoordinatorComputeId := fun _ => 2
  addressPubkeyConverterEncode := hexEncodeToString
  validatorPubkeyConverterEncode := hexEncodeToString
  txFeeCalculatorComputeGasLimit := fun tx => tx.GasLimit
  txFeeCalculatorComputeTxFeeBasedOnGasUsed := fun tx gasUsed => tx.GasPrice * gasUsed

/-- A sample ledger transaction. -/
def sampleRawTx : RawTransaction where
  Nonce := 1
  Value := 5
  RcvAddr := [1]
  SndAddr := [2]
  GasPrice := 10
  GasLimit := 100
  Data := ""
  Signature := []
  RcvUserName := []
  SndUserName := []

/-- The document `data.AccountBalanceHistory`, with the fields of its test. -/
structure AccountBalanceHistory where
  Address : String
  Timestamp : Int
  Balance : String
  TokenIdentifier : String
  deriving DecidableEq, Repr

/-- The history entry of `TestSerializeAccountsHistory`. -/
def sampleHistory : AccountBalanceHistory where
  Address := "account1"
  Timestamp := 10
  Balance := "123"
  TokenIdentifier := "token-0001"

/-- A sample marshaller of history entries that gives the JSON of the test for
`sampleHistory` and fails on an entry without address. -/
def sampleMarshalHistory (h : AccountBalanceHistory) : Except Error String :=
  if h.Address = "" then .error "json: unsupported value"
  else .ok ("\x7b\"address\":\"" ++ h.Address ++ "\",\"timestamp\":10,\"balance\":\"" ++
    h.Balance ++ "\",\"token\":\"" ++ h.TokenIdentifier ++ "\"\x7d")

/-- A dispatcher of capacity 0 whose worker is blocked in its `select`. -/
def sampleUnbuffered : dataDispatcher String :=
  { backOffTime := 0, chanWorkItems := [], chanCapacity := 0, worker := .waiting }

/-- A sample run on a channel without buffer: the worker blocks in its
`select`, the item `a` is handed to it, `Save` fails once with the back-off
signal and then succeeds; then the same for the item `b`, whose `Save` succeeds
at once; then the item `c` is handed to the worker. -/
def sampleEvents : List (DispatcherEvent String) :=
  [.select, .add (some "a"), .save (some sampleBackOff), .add none, .save none,
   .select, .add (some "b"), .save none, .select, .add (some "c")]

/-- A sample run on a channel of capacity 2: three items, of which the third is
added while the worker is inside `doWork` on the first. -/
def sampleBufferedEvents : List (DispatcherEvent String) :=
  [.add (some "a"), .add (some "b"), .select, .save (some sampleFailure),
   .add (some "c"), .save none, .select, .save none]

/-- The ledger transaction of `TestCheckGasUsedInvalidTransaction`. -/
def sampleInvalidRawTx : RawTransaction :=
  { sampleRawTx with GasLimit := 100, GasPrice := 100 }

/-- The body of `TestCheckGasUsedInvalidTransaction`: an invalid miniblock with
the transaction and a receipt miniblock. -/
def sampleBody : List BodyMiniBlock :=
  [{ shards := { SenderShardID := 0, ReceiverShardID := 0 }, family := .invalid,
     TxHashes := [[1]] },
   { shards := { SenderShardID := 0, ReceiverShardID := 0 }, family := .receipt,
     TxHashes := [[2]] }]

/-- The pool of `TestCheckGasUsedInvalidTransaction`: the invalid transaction
and a receipt of value 100 that references it. -/
def samplePool : Pool where
  txs := []
  invalid := [([1], sampleInvalidRawTx)]
  receipts := [{ Value := 100, Data := "", TxHash := [1] }]

/-! ## Properties -/

/-! ### Evaluation of the formats -/

/-- A stretch of the format without `%` is copied as it is. -/
theorem go_plain (pre : List Char) (h : '%' ∉ pre) (rest : List Char) (args : List FmtArg) :
    Sprintf.go (pre ++ rest) args = pre ++ Sprintf.go rest args := by
  induction pre with
  | nil => rfl
  | cons c cs ih =>
    have hc : c ≠ '%' := fun e => h (by simp [e])
    have hcs : '%' ∉ cs := fun e => h (by simp [e])
    simp only [List.cons_append]
    rw [Sprintf.go.eq_3 _ _ _ (by intro v r a as e; exact absurd e hc), ih hcs]

/-- A `%s` after a plain stretch prints the next string operand. -/
theorem sprintf_str (pre rest s : String) (args : List FmtArg) (h : '%' ∉ pre.data) :
    Sprintf (pre ++ ("%s" ++ rest)) (.str s :: args) = pre ++ (s ++ Sprintf rest args) := by
  apply String.ext
  simp only [Sprintf, String.data_append]
  rw [go_plain _ h]
  rfl

/-- A `%d` after a plain stretch prints the next integer operand in base 10. -/
theorem sprintf_uint (pre rest : String) (n : Nat) (args : List FmtArg) (h : '%' ∉ pre.data) :
    Sprintf (pre ++ ("%d" ++ rest)) (.uint n :: args) = pre ++ (Nat.repr n ++ Sprintf rest args) := by
  apply String.ext
  simp only [Sprintf, String.data_append]
  rw [go_plain _ h]
  rfl

/-- A format without `%` is printed as it is. -/
theorem sprintf_plain (pre : String) (args : List FmtArg) (h : '%' ∉ pre.data) :
    Sprintf pre args = pre := by
  apply String.ext
  have hgo := go_plain pre.data h [] args
  rw [List.append_nil] at hgo
  simp [Sprintf, hgo, Sprintf.go]

/-- The format of the destination-side payload, evaluated. -/
theorem sprintf_fieldPatch (status mbHash log scrs ts : String) (gasUsed : Nat)
    (fee doc : String) :
    Sprintf ("\x7b\"script\":\x7b\"source\":\"" ++
              "ctx._source.status = params.status;" ++
              "ctx._source.miniBlockHash = params.miniBlockHash;" ++
              "ctx._source.log = params.log;" ++
              "ctx._source.scResults = params.scResults;" ++
              "ctx._source.timestamp = params.timestamp;" ++
              "ctx._source.gasUsed = params.gasUsed;" ++
              "ctx._source.fee = params.fee;" ++
              "\",\"lang\": \"painless\",\"params\":" ++
              "\x7b\"status\": \"%s\", \"miniBlockHash\": \"%s\", \"log\": %s, \"scResults\": %s, \"timestamp\": %s, \"gasUsed\": %d, \"fee\": \"%s\"\x7d\x7d,\"upsert\":%s\x7d")
              [.str status, .str mbHash, .str log, .str scrs,
               .str ts, .uint gasUsed, .str fee, .str doc]
      = fieldPatchPayload status mbHash log scrs ts gasUsed fee doc := by
  set_option maxRecDepth 100000 in
  have hfmt : ("\x7b\"script\":\x7b\"source\":\"" ++
              "ctx._source.status = params.status;" ++
              "ctx._source.miniBlockHash = params.miniBlockHash;" ++
              "ctx._source.log = params.log;" ++
              "ctx._source.scResults = params.scResults;" ++
              "ctx._source.timestamp = params.timestamp;" ++
              "ctx._source.gasUsed = params.gasUsed;" ++
              "ctx._source.fee = params.fee;" ++
              "\",\"lang\": \"painless\",\"params\":" ++
              "\x7b\"status\": \"%s\", \"miniBlockHash\": \"%s\", \"log\": %s, \"scResults\": %s, \"timestamp\": %s, \"gasUsed\": %d, \"fee\": \"%s\"\x7d\x7d,\"upsert\":%s\x7d" : String)
      = ("\x7b\"script\":\x7b\"source\":\"" ++ String.join (patchedFields.map assignField) ++
          "\",\"lang\": \"painless\",\"params\":\x7b" ++ "\"status\": \"") ++ ("%s" ++
        ("\", " ++ "\"miniBlockHash\": \"" ++ ("%s" ++
        ("\", " ++ "\"log\": " ++ ("%s" ++
        (", " ++ "\"scResults\": " ++ ("%s" ++
        (", " ++ "\"timestamp\": " ++ ("%s" ++
        (", " ++ "\"gasUsed\": " ++ ("%d" ++
        (", " ++ "\"fee\": \"" ++ ("%s" ++
        ("\"\x7d\x7d,\"upsert\":" ++ ("%s" ++ "\x7d"))))))))))))))) := by
    decide
  rw [hfmt, sprintf_str _ _ _ _ (by decide), sprintf_str _ _ _ _ (by decide),
    sprintf_str _ _ _ _ (by decide), sprintf_str _ _ _ _ (by decide),
    sprintf_str _ _ _ _ (by decide), sprintf_uint _ _ _ _ (by decide),
    sprintf_str _ _ _ _ (by decide), sprintf_str _ _ _ _ (by decide),
    sprintf_plain _ _ (by decide)]
  simp only [fieldPatchPayload, String.append_assoc]

/-- The format of the index action line, evaluated. -/
theorem sprintf_index (h : String) :
    Sprintf "\x7b \"index\" : \x7b \"_id\" : \"%s\", \"_type\" : \"%s\" \x7d \x7d%s"
        [.str h, .str "_doc", .str "\n"] = indexActionLine h := by
  rfl

/-- The format of the update action line of a transaction, evaluated. -/
theorem sprintf_update (h : String) :
    Sprintf "\x7b\"update\":\x7b\"_id\":\"%s\", \"_type\": \"_doc\"\x7d\x7d%s"
        [.str h, .str "\n"] = updateActionLine h := by
  rfl

/-- The format of the sender-side payload, evaluated. -/
theorem sprintf_noOp (doc : String) :
    Sprintf "\x7b\"script\":\x7b\"source\":\"return\"\x7d,\"upsert\":%s\x7d" [.str doc]
      = noOpUpsertPayload doc := by
  rfl

/-- The two scripted payloads differ: the script of one starts with `return`,
the script of the other with an assignment. -/
theorem noOp_ne_fieldPatch (doc status mbHash log scrs ts : String) (gasUsed : Nat)
    (fee doc2 : String) :
    noOpUpsertPayload doc ≠ fieldPatchPayload status mbHash log scrs ts gasUsed fee doc2 := by
  intro h
  have h1 : ("\x7b\"script\":\x7b\"source\":\"return\"\x7d,\"upsert\":" : String)
      = "\x7b\"script\":\x7b\"source\":\"" ++ ("r" ++ "eturn\"\x7d,\"upsert\":") := by decide
  have h2 : String.join (patchedFields.map assignField)
      = "c" ++ ("tx._source.status = params.status;" ++
        "ctx._source.miniBlockHash = params.miniBlockHash;" ++
        "ctx._source.log = params.log;" ++
        "ctx._source.scResults = params.scResults;" ++
        "ctx._source.timestamp = params.timestamp;" ++
        "ctx._source.gasUsed = params.gasUsed;" ++
        "ctx._source.fee = params.fee;") := by
    set_option maxRecDepth 100000 in decide
  have hr : ("r" : String).data = ['r'] := rfl
  have hc : ("c" : String).data = ['c'] := rfl
  simp only [noOpUpsertPayload, fieldPatchPayload, h1, h2, String.append_assoc] at h
  have hd := congrArg String.data h
  simp only [String.data_append, hr, hc, List.append_cancel_left_eq, List.singleton_append,
    List.cons.injEq] at hd
  exact absurd hd.1 (by decide)

/-! ### Write strategy -/

/-- The plain index branch: taken as soon as `isIntraShardOrInvalid` holds. -/
theorem prepare_of_intraOrInvalid (env : Externals) (tx : Transaction) (S : Nat) (b : Bool)
    (m : String) (hm : env.marshalTx tx = .ok m)
    (h : isIntraShardOrInvalid env tx S = true) :
    prepareSerializedDataForATransaction env tx S b = .ok (indexActionLine tx.Hash, m) := by
  simp only [prepareSerializedDataForATransaction, hm, h, if_true, sprintf_index]

/-- C1. For a transaction whose sender shard and receiver shard are both the
local shard `S`, and whose marshalling succeeds with `m`, the result is the
`index` action line carrying `tx.Hash` and the payload `m` itself. -/
theorem C1_intraShard_plain_index (env : Externals) (tx : Transaction) (S : Nat) (b : Bool)
    (m : String) (hS : tx.SenderShard = tx.ReceiverShard) (hR : tx.ReceiverShard = S)
    (hm : env.marshalTx tx = .ok m) :
    prepareSerializedDataForATransaction env tx S b = .ok (indexActionLine tx.Hash, m) := by
  apply prepare_of_intraOrInvalid env tx S b m hm
  simp [isIntraShardOrInvalid, hS, hR]

/-- C1, at a concrete input: a transaction of shard 1 serialised on shard 1. -/
theorem C1_intraShard_plain_index_witness :
    (sampleTx "a1" "success" 1 1).SenderShard = (sampleTx "a1" "success" 1 1).ReceiverShard ∧
    (sampleTx "a1" "success" 1 1).ReceiverShard = 1 ∧
    sampleEnv.marshalTx (sampleTx "a1" "success" 1 1) = .ok "\x7b\"hash\":\"a1\"\x7d" ∧
    prepareSerializedDataForATransaction sampleEnv (sampleTx "a1" "success" 1 1) 1 false
      = .ok (indexActionLine "a1", "\x7b\"hash\":\"a1\"\x7d") :=
  ⟨by decide, by decide, by decide,
    C1_intraShard_plain_index sampleEnv (sampleTx "a1" "success" 1 1) 1 false _
      (by decide) (by decide) (by decide)⟩

/-- The sender-side branch: not intra-shard, not invalid, not destination. -/
theorem prepare_of_sender (env : Externals) (tx : Transaction) (S : Nat) (b : Bool)
    (m : String) (hm : env.marshalTx tx = .ok m)
    (h1 : isIntraShardOrInvalid env tx S = false) (h2 : isCrossShardDstMe tx S = false) :
    prepareSerializedDataForATransaction env tx S b
      = .ok (updateActionLine tx.Hash, noOpUpsertPayload m) := by
  simp [prepareSerializedDataForATransaction, hm, h1, h2, sprintf_update, sprintf_noOp]

/-- The destination-side branch: not intra-shard, not invalid, destination. -/
theorem prepare_of_destination (env : Externals) (tx : Transaction) (S : Nat) (b : Bool)
    (m l s t : String) (hm : env.marshalTx tx = .ok m) (hl : env.marshalLog tx.Log = .ok l)
    (hs : env.marshalScResults tx.SmartContractResults = .ok s)
    (ht : env.marshalTimestamp tx.Timestamp = .ok t)
    (h1 : isIntraShardOrInvalid env tx S = false) (h2 : isCrossShardDstMe tx S = true) :
    prepareSerializedDataForATransaction env tx S b
      = .ok (updateActionLine tx.Hash,
          fieldPatchPayload tx.Status tx.MBHash l s t tx.GasUsed tx.Fee m) := by
  simp only [prepareSerializedDataForATransaction, hm, hl, hs, ht, h1, h2, sprintf_update,
    sprintf_fieldPatch]
  simp

/-- C2, as stated, fails: a cross-shard transaction with the invalid status gets
the plain index write on the sender shard and on the destination shard, so
neither side issues a scripted upsert. -/
theorem C2_invalid_crossShard_counterexample :
    (sampleTx "c3" "invalid" 0 1).SenderShard ≠ (sampleTx "c3" "invalid" 0 1).ReceiverShard ∧
    prepareSerializedDataForATransaction sampleEnv (sampleTx "c3" "invalid" 0 1) 0 false
      = .ok (indexActionLine "c3", "\x7b\"hash\":\"c3\"\x7d") ∧
    prepareSerializedDataForATransaction sampleEnv (sampleTx "c3" "invalid" 0 1) 1 false
      = .ok (indexActionLine "c3", "\x7b\"hash\":\"c3\"\x7d") ∧
    prepareSerializedDataForATransaction sampleEnv (sampleTx "c3" "invalid" 0 1) 0 false
      ≠ .ok (updateActionLine "c3", noOpUpsertPayload "\x7b\"hash\":\"c3\"\x7d") ∧
    prepareSerializedDataForATransaction sampleEnv (sampleTx "c3" "invalid" 0 1) 1 false
      ≠ .ok (updateActionLine "c3",
          fieldPatchPayload "invalid" "mb" "null" "null" "0" 7 "0" "\x7b\"hash\":\"c3\"\x7d") := by
  have e0 : prepareSerializedDataForATransaction sampleEnv (sampleTx "c3" "invalid" 0 1) 0 false
      = .ok (indexActionLine "c3", "\x7b\"hash\":\"c3\"\x7d") :=
    prepare_of_intraOrInvalid sampleEnv _ 0 false _ (by decide) (by decide)
  have e1 : prepareSerializedDataForATransaction sampleEnv (sampleTx "c3" "invalid" 0 1) 1 false
      = .ok (indexActionLine "c3", "\x7b\"hash\":\"c3\"\x7d") :=
    prepare_of_intraOrInvalid sampleEnv _ 1 false _ (by decide) (by decide)
  refine ⟨by decide, e0, e1, ?_, ?_⟩
  · rw [e0]
    intro h
    injection h with h
    have h' := congrArg Prod.fst h
    revert h'
    decide
  · rw [e1]
    intro h
    injection h with h
    have h' := congrArg Prod.fst h
    revert h'
    decide

/-- C2, amended. For a cross-shard transaction whose status is not the invalid
status and whose marshal calls succeed, the sender shard issues the no-op
upsert, the destination shard issues the field patch, and the two payloads
differ. -/
theorem C2_crossShard_one_side_each (env : Externals) (tx : Transaction) (b1 b2 : Bool)
    (m l s t : String) (hx : tx.SenderShard ≠ tx.ReceiverShard)
    (hst : tx.Status ≠ env.txStatusInvalid)
    (hm : env.marshalTx tx = .ok m) (hl : env.marshalLog tx.Log = .ok l)
    (hs : env.marshalScResults tx.SmartContractResults = .ok s)
    (ht : env.marshalTimestamp tx.Timestamp = .ok t) :
    prepareSerializedDataForATransaction env tx tx.SenderShard b1
      = .ok (updateActionLine tx.Hash, noOpUpsertPayload m) ∧
    prepareSerializedDataForATransaction env tx tx.ReceiverShard b2
      = .ok (updateActionLine tx.Hash,
          fieldPatchPayload tx.Status tx.MBHash l s t tx.GasUsed tx.Fee m) ∧
    noOpUpsertPayload m ≠ fieldPatchPayload tx.Status tx.MBHash l s t tx.GasUsed tx.Fee m := by
  refine ⟨?_, ?_, noOp_ne_fieldPatch _ _ _ _ _ _ _ _ _⟩
  · apply prepare_of_sender env tx _ b1 m hm
    · simp [isIntraShardOrInvalid, hx, hst]
    · simp [isCrossShardDstMe, hx, Ne.symm hx]
  · apply prepare_of_destination env tx _ b2 m l s t hm hl hs ht
    · simp [isIntraShardOrInvalid, hx, hst]
    · simp [isCrossShardDstMe, hx]

/-- C2, amended, at a concrete input: a successful transaction from shard 0 to shard 1. -/
theorem C2_crossShard_one_side_each_witness :
    (sampleTx "c2" "success" 0 1).SenderShard ≠ (sampleTx "c2" "success" 0 1).ReceiverShard ∧
    (sampleTx "c2" "success" 0 1).Status ≠ sampleEnv.txStatusInvalid ∧
    prepareSerializedDataForATransaction sampleEnv (sampleTx "c2" "success" 0 1) 0 false
      = .ok (updateActionLine "c2", noOpUpsertPayload "\x7b\"hash\":\"c2\"\x7d") ∧
    prepareSerializedDataForATransaction sampleEnv (sampleTx "c2" "success" 0 1) 1 false
      = .ok (updateActionLine "c2",
          fieldPatchPayload "success" "mb" "null" "null" "0" 7 "0" "\x7b\"hash\":\"c2\"\x7d") :=
  have h := C2_crossShard_one_side_each sampleEnv (sampleTx "c2" "success" 0 1) false false
    "\x7b\"hash\":\"c2\"\x7d" "null" "null" "0" (by decide) (by decide) (by decide) rfl rfl rfl
  ⟨by decide, by decide, h.1, h.2.1⟩

/-- C3. For a transaction that is not invalid, whose shards differ and whose
receiver shard is the local shard `S`, the result is the `update` action line
for `tx.Hash` and the field-patch payload: its script is one assignment for each
of status, miniBlockHash, log, scResults, timestamp, gasUsed and fee, its
parameters are `tx.Status`, `tx.MBHash`, the marshalled log, the marshalled
smart contract results, the marshalled timestamp, `tx.GasUsed` and `tx.Fee`, and
its upsert value is the marshalled transaction. -/
theorem C3_destination_field_patch (env : Externals) (tx : Transaction) (S : Nat) (b : Bool)
    (m l s t : String) (hst : tx.Status ≠ env.txStatusInvalid)
    (hx : tx.SenderShard ≠ tx.ReceiverShard) (hR : tx.ReceiverShard = S)
    (hm : env.marshalTx tx = .ok m) (hl : env.marshalLog tx.Log = .ok l)
    (hs : env.marshalScResults tx.SmartContractResults = .ok s)
    (ht : env.marshalTimestamp tx.Timestamp = .ok t) :
    prepareSerializedDataForATransaction env tx S b
      = .ok ("\x7b\"update\":\x7b\"_id\":\"" ++ tx.Hash ++ "\", \"_type\": \"_doc\"\x7d\x7d\n",
          "\x7b\"script\":\x7b\"source\":\"" ++
            String.join (["status", "miniBlockHash", "log", "scResults", "timestamp", "gasUsed",
              "fee"].map (fun f => "ctx._source." ++ f ++ " = params." ++ f ++ ";")) ++
          "\",\"lang\": \"painless\",\"params\":\x7b" ++
          "\"status\": \"" ++ tx.Status ++ "\", " ++
          "\"miniBlockHash\": \"" ++ tx.MBHash ++ "\", " ++
          "\"log\": " ++ l ++ ", " ++
          "\"scResults\": " ++ s ++ ", " ++
          "\"timestamp\": " ++ t ++ ", " ++
          "\"gasUsed\": " ++ Nat.repr tx.GasUsed ++ ", " ++
          "\"fee\": \"" ++ tx.Fee ++ "\"\x7d\x7d,\"upsert\":" ++ m ++ "\x7d") := by
  subst hR
  apply prepare_of_destination env tx _ b m l s t hm hl hs ht
  · simp [isIntraShardOrInvalid, hx, hst]
  · simp [isCrossShardDstMe, hx]

/-- C3, at a concrete input: a successful transaction from shard 0 serialised on
its destination shard 1. -/
theorem C3_destination_field_patch_witness :
    (sampleTx "c3" "success" 0 1).Status ≠ sampleEnv.txStatusInvalid ∧
    (sampleTx "c3" "success" 0 1).SenderShard ≠ (sampleTx "c3" "success" 0 1).ReceiverShard ∧
    (sampleTx "c3" "success" 0 1).ReceiverShard = 1 ∧
    prepareSerializedDataForATransaction sampleEnv (sampleTx "c3" "success" 0 1) 1 true
      = .ok (updateActionLine "c3",
          fieldPatchPayload "success" "mb" "null" "null" "0" 7 "0" "\x7b\"hash\":\"c3\"\x7d") :=
  ⟨by decide, by decide, by decide,
    C3_destination_field_patch sampleEnv (sampleTx "c3" "success" 0 1) 1 true
      "\x7b\"hash\":\"c3\"\x7d" "null" "null" "0" (by decide) (by decide) (by decide)
      (by decide) rfl rfl rfl⟩

/-- C4. For a transaction that is not invalid, whose shards differ and whose
sender shard is the local shard `S`, the result is the `update` action line for
`tx.Hash` and the payload `{"script":{"source":"return"},"upsert":<marshalled tx>}`. -/
theorem C4_sender_noop_upsert (env : Externals) (tx : Transaction) (S : Nat) (b : Bool)
    (m : String) (hst : tx.Status ≠ env.txStatusInvalid)
    (hx : tx.SenderShard ≠ tx.ReceiverShard) (hS : tx.SenderShard = S)
    (hm : env.marshalTx tx = .ok m) :
    prepareSerializedDataForATransaction env tx S b
      = .ok ("\x7b\"update\":\x7b\"_id\":\"" ++ tx.Hash ++ "\", \"_type\": \"_doc\"\x7d\x7d\n",
          "\x7b\"script\":\x7b\"source\":\"return\"\x7d,\"upsert\":" ++ m ++ "\x7d") := by
  subst hS
  apply prepare_of_sender env tx _ b m hm
  · simp [isIntraShardOrInvalid, hx, hst]
  · simp [isCrossShardDstMe, hx, Ne.symm hx]

/-- C4, at a concrete input: a pending transaction from shard 2 serialised on shard 2. -/
theorem C4_sender_noop_upsert_witness :
    (sampleTx "c4" "pending" 2 0).Status ≠ sampleEnv.txStatusInvalid ∧
    (sampleTx "c4" "pending" 2 0).SenderShard ≠ (sampleTx "c4" "pending" 2 0).ReceiverShard ∧
    (sampleTx "c4" "pending" 2 0).SenderShard = 2 ∧
    prepareSerializedDataForATransaction sampleEnv (sampleTx "c4" "pending" 2 0) 2 false
      = .ok (updateActionLine "c4", noOpUpsertPayload "\x7b\"hash\":\"c4\"\x7d") :=
  ⟨by decide, by decide, by decide,
    C4_sender_noop_upsert sampleEnv (sampleTx "c4" "pending" 2 0) 2 false
      "\x7b\"hash\":\"c4\"\x7d" (by decide) (by decide) (by decide) (by decide)⟩

/-- C5. For a transaction whose status is the invalid status, whatever the local
shard and the shards of the transaction, the result is the plain `index` action
line for `tx.Hash` with the marshalled transaction as payload. -/
theorem C5_invalid_plain_index (env : Externals) (tx : Transaction) (S : Nat) (b : Bool)
    (m : String) (hst : tx.Status = env.txStatusInvalid) (hm : env.marshalTx tx = .ok m) :
    prepareSerializedDataForATransaction env tx S b
      = .ok ("\x7b \"index\" : \x7b \"_id\" : \"" ++ tx.Hash ++
          "\", \"_type\" : \"_doc\" \x7d \x7d\n", m) := by
  apply prepare_of_intraOrInvalid env tx S b m hm
  simp [isIntraShardOrInvalid, hst]

/-- C5, at a concrete input: an invalid transaction from shard 0 to shard 1,
serialised on shard 2. -/
theorem C5_invalid_plain_index_witness :
    (sampleTx "c5" "invalid" 0 1).Status = sampleEnv.txStatusInvalid ∧
    prepareSerializedDataForATransaction sampleEnv (sampleTx "c5" "invalid" 0 1) 2 false
      = .ok (indexActionLine "c5", "\x7b\"hash\":\"c5\"\x7d") :=
  ⟨by decide, C5_invalid_plain_index sampleEnv (sampleTx "c5" "invalid" 0 1) 2 false
    "\x7b\"hash\":\"c5\"\x7d" (by decide) (by decide)⟩

/-! ### Strings and byte sizes -/

/-- The byte size of a concatenation is the sum of the byte sizes. -/
theorem utf8ByteSize_append (a b : String) :
    (a ++ b).utf8ByteSize = a.utf8ByteSize + b.utf8ByteSize := by
  have h : ∀ s : String, s.utf8ByteSize = String.utf8Len s.data := fun _ => rfl
  rw [h, h, h, String.data_append, String.utf8Len_append]

/-- Only the empty string has byte size zero. -/
theorem utf8ByteSize_eq_zero (a : String) : a.utf8ByteSize = 0 ↔ a = "" := by
  have h : ∀ s : String, s.utf8ByteSize = String.utf8Len s.data := fun _ => rfl
  rw [h, String.utf8Len_eq_zero]
  constructor
  · intro hd
    exact String.ext hd
  · intro e
    subst e
    rfl

/-- Joining a list of strings, head first. -/
theorem join_cons (a : String) (l : List String) : String.join (a :: l) = a ++ String.join l := by
  apply String.ext
  simp [String.data_join]

/-- Joining two lists of strings one after the other. -/
theorem join_append (l₁ l₂ : List String) :
    String.join (l₁ ++ l₂) = String.join l₁ ++ String.join l₂ := by
  apply String.ext
  simp [String.data_join]

/-- Joining the joined groups is joining all their members. -/
theorem join_map_join {α : Type} (f : α → String) (groups : List (List α)) :
    String.join (groups.map (fun g => String.join (g.map f)))
      = String.join (groups.flatten.map f) := by
  induction groups with
  | nil => rfl
  | cons g gs ih =>
    rw [List.map_cons, join_cons, ih, List.flatten_cons, List.map_append, join_append]

/-- A join of non-empty strings over a non-empty list is not empty. -/
theorem join_ne_empty {α : Type} (f : α → String) (l : List α) (hl : l ≠ [])
    (hf : ∀ a ∈ l, f a ≠ "") : (String.join (l.map f)).utf8ByteSize ≠ 0 := by
  cases l with
  | nil => exact absurd rfl hl
  | cons a as =>
    rw [List.map_cons, join_cons, utf8ByteSize_append]
    have ha : (f a).utf8ByteSize ≠ 0 := fun h =>
      hf a (List.mem_cons_self a as) ((utf8ByteSize_eq_zero _).1 h)
    omega

/-! ### Batching -/

/-- The invariant of the loop of `serializeTransactions`. When every remaining
transaction serialises to `lines tx` and the running buffer holds the lines of
the transactions `cur`, the loop returns the sealed buffers followed by the
buffers of consecutive non-empty groups of `cur ++ txs`, each group within the
threshold or made of a single transaction whose lines exceed it. -/
theorem loop_groups (env : Externals) (S : Nat) (mdb : BoolMap) (lines : Transaction → String) :
    ∀ (txs cur : List Transaction) (slice : List String),
      (∀ tx ∈ txs, ∃ meta data,
        prepareSerializedDataForATransaction env tx S (mdb.get tx.MBHash) = .ok (meta, data) ∧
        lines tx = meta ++ data ++ "\n") →
      (∀ tx ∈ cur, lines tx ≠ "") →
      (cur = [] ∨ (String.join (cur.map lines)).utf8ByteSize ≤ env.bulkSizeThreshold ∨
        ∃ tx, cur = [tx] ∧ env.bulkSizeThreshold < (lines tx).utf8ByteSize) →
      ∃ groups : List (List Transaction),
        groups.flatten = cur ++ txs ∧
        (∀ g ∈ groups, g ≠ []) ∧
        (∀ g ∈ groups, (String.join (g.map lines)).utf8ByteSize ≤ env.bulkSizeThreshold ∨
          ∃ tx, g = [tx] ∧ env.bulkSizeThreshold < (lines tx).utf8ByteSize) ∧
        serializeTransactions.loop env S mdb txs (String.join (cur.map lines)) slice
          = .ok (slice ++ groups.map (fun g => String.join (g.map lines))) := by
  intro txs
  induction txs with
  | nil =>
    intro cur slice _ hcur hinv
    by_cases hc : cur = []
    · subst hc
      have hz : ("" : String).utf8ByteSize = 0 := rfl
      exact ⟨[], rfl, by simp, by simp, by simp [serializeTransactions.loop, String.join, hz]⟩
    · have hsz := join_ne_empty lines cur hc hcur
      refine ⟨[cur], by simp, by simpa using hc, ?_, ?_⟩
      · intro g hg
        rw [List.mem_singleton] at hg
        subst hg
        rcases hinv with h | h | h
        · exact absurd h hc
        · exact Or.inl h
        · exact Or.inr h
      · simp [serializeTransactions.loop, hsz]
  | cons tx rest ih =>
    intro cur slice hall hcur hinv
    obtain ⟨meta, data, hprep, hlines⟩ := hall tx (List.mem_cons_self tx rest)
    have hrest : ∀ t ∈ rest, ∃ meta data,
        prepareSerializedDataForATransaction env t S (mdb.get t.MBHash) = .ok (meta, data) ∧
        lines t = meta ++ data ++ "\n" := fun t ht => hall t (List.mem_cons_of_mem tx ht)
    have hne : lines tx ≠ "" := by
      intro h
      have hz := (utf8ByteSize_eq_zero (lines tx)).2 h
      rw [hlines, utf8ByteSize_append] at hz
      have hnl : ("\n" : String).utf8ByteSize = 1 := by decide
      omega
    have hsize : (lines tx).utf8ByteSize
        = meta.utf8ByteSize + (data ++ "\n").utf8ByteSize := by
      rw [hlines, String.append_assoc, utf8ByteSize_append]
    by_cases hseal : (String.join (cur.map lines)).utf8ByteSize + meta.utf8ByteSize
          + (data ++ "\n").utf8ByteSize > env.bulkSizeThreshold
        ∧ (String.join (cur.map lines)).utf8ByteSize ≠ 0
    · -- the running buffer is sealed and a fresh one starts with this transaction
      have hc : cur ≠ [] := by
        intro h
        subst h
        exact hseal.2 rfl
      have hbuf : ("" ++ meta) ++ (data ++ "\n") = String.join ([tx].map lines) := by
        rw [List.map_singleton, join_cons, hlines]
        simp [String.join, String.append_assoc]
      have hinv1 : ([tx] : List Transaction) = [] ∨
          (String.join ([tx].map lines)).utf8ByteSize ≤ env.bulkSizeThreshold ∨
          ∃ t, [tx] = [t] ∧ env.bulkSizeThreshold < (lines t).utf8ByteSize := by
        rcases Nat.lt_or_ge env.bulkSizeThreshold (lines tx).utf8ByteSize with h | h
        · exact Or.inr (Or.inr ⟨tx, rfl, h⟩)
        · refine Or.inr (Or.inl ?_)
          rw [List.map_singleton, join_cons]
          simpa [String.join] using h
      obtain ⟨groups, hflat, hnonempty, hbound, hloop⟩ :=
        ih [tx] (slice ++ [String.join (cur.map lines)]) hrest
          (by intro t ht; rw [List.mem_singleton] at ht; subst ht; exact hne) hinv1
      refine ⟨cur :: groups, ?_, ?_, ?_, ?_⟩
      · rw [List.flatten_cons, hflat]
        rfl
      · intro g hg
        rcases List.mem_cons.1 hg with h | h
        · subst h
          exact hc
        · exact hnonempty g h
      · intro g hg
        rcases List.mem_cons.1 hg with h | h
        · subst h
          rcases hinv with h' | h' | h'
          · exact absurd h' hc
          · exact Or.inl h'
          · exact Or.inr h'
        · exact hbound g h
      · rw [serializeTransactions.loop, hprep]
        have hcond : (decide ((String.join (cur.map lines)).utf8ByteSize + meta.utf8ByteSize
            + (data ++ "\n").utf8ByteSize > env.bulkSizeThreshold)
            && (String.join (cur.map lines)).utf8ByteSize != 0) = true := by
          simp [hseal.1, hseal.2]
        simp only [hcond, if_true]
        rw [hbuf, hloop]
        simp
    · -- the lines of this transaction are appended to the running buffer
      have hbuf : (String.join (cur.map lines) ++ meta) ++ (data ++ "\n")
          = String.join ((cur ++ [tx]).map lines) := by
        rw [List.map_append, join_append, List.map_singleton, join_cons, hlines]
        simp [String.join, String.append_assoc]
      have hinv1 : cur ++ [tx] = [] ∨
          (String.join ((cur ++ [tx]).map lines)).utf8ByteSize ≤ env.bulkSizeThreshold ∨
          ∃ t, cur ++ [tx] = [t] ∧ env.bulkSizeThreshold < (lines t).utf8ByteSize := by
        by_cases hc : cur = []
        · subst hc
          rcases Nat.lt_or_ge env.bulkSizeThreshold (lines tx).utf8ByteSize with h | h
          · exact Or.inr (Or.inr ⟨tx, rfl, h⟩)
          · refine Or.inr (Or.inl ?_)
            rw [List.nil_append, List.map_singleton, join_cons]
            simpa [String.join] using h
        · have hsz := join_ne_empty lines cur hc hcur
          refine Or.inr (Or.inl ?_)
          rw [← hbuf, utf8ByteSize_append, utf8ByteSize_append]
          by_contra hgt
          exact hseal ⟨by omega, hsz⟩
      obtain ⟨groups, hflat, hnonempty, hbound, hloop⟩ :=
        ih (cur ++ [tx]) slice hrest
          (by
            intro t ht
            rcases List.mem_append.1 ht with h | h
            · exact hcur t h
            · rw [List.mem_singleton] at h
              subst h
              exact hne) hinv1
      refine ⟨groups, ?_, hnonempty, hbound, ?_⟩
      · rw [hflat]
        simp
      · rw [serializeTransactions.loop, hprep]
        have hcond : (decide ((String.join (cur.map lines)).utf8ByteSize + meta.utf8ByteSize
            + (data ++ "\n").utf8ByteSize > env.bulkSizeThreshold)
            && (String.join (cur.map lines)).utf8ByteSize != 0) = false := by
          rcases not_and_or.1 hseal with h | h
          · simp [h]
          · simp only [ne_eq, not_not] at h
            simp [h]
        simp only [hcond, Bool.false_eq_true, if_false]
        rw [hbuf, hloop]

/-- The members of `sampleTxs` serialise on shard 1 to `sampleMeta` and `samplePayload`. -/
theorem sampleTxs_prepare (mdb : BoolMap) : ∀ tx ∈ sampleTxs,
    prepareSerializedDataForATransaction sampleEnv tx 1 (mdb.get tx.MBHash)
      = .ok (sampleMeta tx, samplePayload tx) := by
  intro tx htx
  simp only [sampleTxs, List.mem_cons, List.mem_singleton, List.not_mem_nil, or_false] at htx
  rcases htx with h | h | h <;> subst h <;>
    exact prepare_of_intraOrInvalid sampleEnv _ 1 _ _ (by decide) (by decide)

/-- C6. When every transaction of the list serialises (to `metaOf tx` and
`payloadOf tx`), `serializeTransactions` returns batches without error; their
concatenation is the concatenation, in input order, of action line, payload and
newline of each transaction; and the batches are the concatenated lines of
consecutive non-empty groups that partition the input list, so that no
transaction is dropped, duplicated, reordered or split across two batches. -/
theorem C6_batches_concatenate (env : Externals) (txs : List Transaction) (S : Nat)
    (oracle : List String → String → Except Error BoolMap) (mdb : BoolMap)
    (metaOf payloadOf : Transaction → String)
    (hall : ∀ tx ∈ txs, prepareSerializedDataForATransaction env tx S (mdb.get tx.MBHash)
      = .ok (metaOf tx, payloadOf tx)) :
    ∃ batches, serializeTransactions env txs S oracle mdb = .ok batches ∧
      String.join batches
        = String.join (txs.map (fun tx => metaOf tx ++ payloadOf tx ++ "\n")) ∧
      ∃ groups : List (List Transaction), groups.flatten = txs ∧ (∀ g ∈ groups, g ≠ []) ∧
        batches = groups.map
          (fun g => String.join (g.map (fun tx => metaOf tx ++ payloadOf tx ++ "\n"))) := by
  obtain ⟨groups, hflat, hnonempty, _, hloop⟩ :=
    loop_groups env S mdb (fun tx => metaOf tx ++ payloadOf tx ++ "\n") txs [] []
      (fun tx htx => ⟨metaOf tx, payloadOf tx, hall tx htx, rfl⟩)
      (by intro tx htx; exact absurd htx (List.not_mem_nil tx)) (Or.inl rfl)
  rw [List.nil_append] at hflat hloop
  refine ⟨_, hloop, ?_, groups, hflat, hnonempty, rfl⟩
  rw [join_map_join, hflat]

/-- C6, at a concrete input: the three transactions of `sampleTxs` on shard 1. -/
theorem C6_batches_concatenate_witness :
    (∀ tx ∈ sampleTxs,
      prepareSerializedDataForATransaction sampleEnv tx 1 (BoolMap.empty.get tx.MBHash)
        = .ok (sampleMeta tx, samplePayload tx)) ∧
    ∃ batches, serializeTransactions sampleEnv sampleTxs 1 (fun _ _ => .ok BoolMap.empty)
        BoolMap.empty = .ok batches ∧
      String.join batches
        = String.join (sampleTxs.map (fun tx => sampleMeta tx ++ samplePayload tx ++ "\n")) ∧
      ∃ groups : List (List Transaction), groups.flatten = sampleTxs ∧
        (∀ g ∈ groups, g ≠ []) ∧
        batches = groups.map
          (fun g => String.join (g.map (fun tx => sampleMeta tx ++ samplePayload tx ++ "\n"))) :=
  ⟨sampleTxs_prepare BoolMap.empty,
    C6_batches_concatenate sampleEnv sampleTxs 1 (fun _ _ => .ok BoolMap.empty) BoolMap.empty
      sampleMeta samplePayload (sampleTxs_prepare BoolMap.empty)⟩

/-- C7. When every transaction of the list serialises (to `metaOf tx` and
`payloadOf tx`), `serializeTransactions` returns batches, and each batch either
has at most `bulkSizeThreshold` bytes or is the action line, payload and newline
of a single transaction that alone exceed the threshold. -/
theorem C7_batches_bounded (env : Externals) (txs : List Transaction) (S : Nat)
    (oracle : List String → String → Except Error BoolMap) (mdb : BoolMap)
    (metaOf payloadOf : Transaction → String)
    (hall : ∀ tx ∈ txs, prepareSerializedDataForATransaction env tx S (mdb.get tx.MBHash)
      = .ok (metaOf tx, payloadOf tx)) :
    ∃ batches, serializeTransactions env txs S oracle mdb = .ok batches ∧
      ∀ b ∈ batches, b.utf8ByteSize ≤ env.bulkSizeThreshold ∨
        ∃ tx ∈ txs, b = metaOf tx ++ payloadOf tx ++ "\n" ∧
          env.bulkSizeThreshold < (metaOf tx ++ payloadOf tx ++ "\n").utf8ByteSize := by
  obtain ⟨groups, hflat, _, hbound, hloop⟩ :=
    loop_groups env S mdb (fun tx => metaOf tx ++ payloadOf tx ++ "\n") txs [] []
      (fun tx htx => ⟨metaOf tx, payloadOf tx, hall tx htx, rfl⟩)
      (by intro tx htx; exact absurd htx (List.not_mem_nil tx)) (Or.inl rfl)
  rw [List.nil_append] at hflat hloop
  refine ⟨_, hloop, ?_⟩
  intro b hb
  obtain ⟨g, hg, rfl⟩ := List.mem_map.1 hb
  rcases hbound g hg with h | ⟨tx, hgtx, hbig⟩
  · exact Or.inl h
  · subst hgtx
    refine Or.inr ⟨tx, ?_, ?_, hbig⟩
    · rw [← hflat]
      exact List.mem_flatten.2 ⟨[tx], hg, List.mem_singleton_self tx⟩
    · rw [List.map_singleton, join_cons]
      simp [String.join]

/-- C7, at a concrete input: the three transactions of `sampleTxs` on shard 1,
with a threshold of 100 bytes. -/
theorem C7_batches_bounded_witness :
    (∀ tx ∈ sampleTxs,
      prepareSerializedDataForATransaction sampleEnv tx 1 (BoolMap.empty.get tx.MBHash)
        = .ok (sampleMeta tx, samplePayload tx)) ∧
    ∃ batches, serializeTransactions sampleEnv sampleTxs 1 (fun _ _ => .ok BoolMap.empty)
        BoolMap.empty = .ok batches ∧
      ∀ b ∈ batches, b.utf8ByteSize ≤ sampleEnv.bulkSizeThreshold ∨
        ∃ tx ∈ sampleTxs, b = sampleMeta tx ++ samplePayload tx ++ "\n" ∧
          sampleEnv.bulkSizeThreshold < (sampleMeta tx ++ samplePayload tx ++ "\n").utf8ByteSize :=
  ⟨sampleTxs_prepare BoolMap.empty,
    C7_batches_bounded sampleEnv sampleTxs 1 (fun _ _ => .ok BoolMap.empty) BoolMap.empty
      sampleMeta samplePayload (sampleTxs_prepare BoolMap.empty)⟩

/-! ### Miniblocks -/

/-- One iteration only appends to the buffer. -/
theorem step_append (env : Externals) (hdrShardID : Nat) (existsInDb : BoolMap)
    (buff : String) (mb : Miniblock) :
    serializeBulkMiniBlocks.step env hdrShardID existsInDb buff mb
      = buff ++ serializeBulkMiniBlocks.step env hdrShardID existsInDb "" mb := by
  unfold serializeBulkMiniBlocks.step
  split
  · split
    · simp
    · simp [prepareBufferMiniblocks, String.append_assoc]
  · split <;> simp [prepareBufferMiniblocks, String.append_assoc]

/-- The loop only appends to the buffer. -/
theorem foldl_step_append (env : Externals) (hdrShardID : Nat) (existsInDb : BoolMap)
    (mbs : List Miniblock) : ∀ buff : String,
    mbs.foldl (serializeBulkMiniBlocks.step env hdrShardID existsInDb) buff
      = buff ++ mbs.foldl (serializeBulkMiniBlocks.step env hdrShardID existsInDb) "" := by
  induction mbs with
  | nil => intro buff; simp
  | cons mb rest ih =>
    intro buff
    rw [List.foldl_cons, List.foldl_cons, ih, ih (serializeBulkMiniBlocks.step _ _ _ "" mb),
      step_append, String.append_assoc]

/-- The buffer of a list of miniblocks around one of them: what the loop wrote
for those before it, what one iteration writes for it, what the loop writes for
those after it. -/
theorem serializeBulkMiniBlocks_split (env : Externals) (hdrShardID : Nat)
    (before after : List Miniblock) (mb : Miniblock)
    (oracle : List String → String → Except Error BoolMap) (existsInDb : BoolMap)
    (horacle : oracle ((before ++ mb :: after).map (fun x => x.Hash)) miniblocksIndex
      = .ok existsInDb) :
    (serializeBulkMiniBlocks env hdrShardID (before ++ mb :: after) oracle).1
      = before.foldl (serializeBulkMiniBlocks.step env hdrShardID existsInDb) "" ++
        serializeBulkMiniBlocks.step env hdrShardID existsInDb "" mb ++
        after.foldl (serializeBulkMiniBlocks.step env hdrShardID existsInDb) "" := by
  simp only [serializeBulkMiniBlocks, horacle, List.foldl_append, List.foldl_cons]
  rw [foldl_step_append, step_append]

/-- C8. For a miniblock that the existence map reports as already indexed, the
buffer returned by `serializeBulkMiniBlocks` holds, between what is written for
the miniblocks before it and for those after it, the `update` action line for
`mb.Hash` followed by a partial document with the single field `senderBlockHash`
(set to `mb.SenderBlockHash`) when `hdrShardID` is `mb.SenderShardID`, and with
the single field `receiverBlockHash` (set to `mb.ReceiverBlockHash`) otherwise,
and a newline; the marshalled miniblock is not written. -/
theorem C8_indexed_miniblock_partial_update (env : Externals) (hdrShardID : Nat)
    (before after : List Miniblock) (mb : Miniblock)
    (oracle : List String → String → Except Error BoolMap) (existsInDb : BoolMap)
    (horacle : oracle ((before ++ mb :: after).map (fun x => x.Hash)) miniblocksIndex
      = .ok existsInDb)
    (hindexed : existsInDb.get mb.Hash = true) :
    (serializeBulkMiniBlocks env hdrShardID (before ++ mb :: after) oracle).1
      = before.foldl (serializeBulkMiniBlocks.step env hdrShardID existsInDb) "" ++
        ("\x7b \"update\" : \x7b \"_id\" : \"" ++ mb.Hash ++ "\" \x7d \x7d\n" ++
          (if hdrShardID = mb.SenderShardID then
            "\x7b \"doc\" : \x7b \"senderBlockHash\" : \"" ++ mb.SenderBlockHash ++ "\" \x7d \x7d"
          else
            "\x7b \"doc\" : \x7b \"receiverBlockHash\" : \"" ++ mb.ReceiverBlockHash ++ "\" \x7d \x7d")
          ++ "\n") ++
        after.foldl (serializeBulkMiniBlocks.step env hdrShardID existsInDb) "" := by
  rw [serializeBulkMiniBlocks_split env hdrShardID before after mb oracle existsInDb horacle]
  have hupd : Sprintf "\x7b \"update\" : \x7b \"_id\" : \"%s\" \x7d \x7d%s" [.str mb.Hash, .str "\n"]
      = "\x7b \"update\" : \x7b \"_id\" : \"" ++ mb.Hash ++ "\" \x7d \x7d\n" := rfl
  have hsnd : Sprintf "\x7b \"doc\" : \x7b \"senderBlockHash\" : \"%s\" \x7d \x7d"
      [.str mb.SenderBlockHash]
      = "\x7b \"doc\" : \x7b \"senderBlockHash\" : \"" ++ mb.SenderBlockHash ++ "\" \x7d \x7d" := rfl
  have hrcv : Sprintf "\x7b \"doc\" : \x7b \"receiverBlockHash\" : \"%s\" \x7d \x7d"
      [.str mb.ReceiverBlockHash]
      = "\x7b \"doc\" : \x7b \"receiverBlockHash\" : \"" ++ mb.ReceiverBlockHash ++ "\" \x7d \x7d" :=
    rfl
  have hstep : serializeBulkMiniBlocks.step env hdrShardID existsInDb "" mb
      = "\x7b \"update\" : \x7b \"_id\" : \"" ++ mb.Hash ++ "\" \x7d \x7d\n" ++
          (if hdrShardID = mb.SenderShardID then
            "\x7b \"doc\" : \x7b \"senderBlockHash\" : \"" ++ mb.SenderBlockHash ++ "\" \x7d \x7d"
          else
            "\x7b \"doc\" : \x7b \"receiverBlockHash\" : \"" ++ mb.ReceiverBlockHash ++ "\" \x7d \x7d")
          ++ "\n" := by
    simp only [serializeBulkMiniBlocks.step, hindexed, hupd, hsnd, hrcv, prepareBufferMiniblocks]
    by_cases h : hdrShardID = mb.SenderShardID <;> simp [h, String.append_assoc]
  rw [hstep]

/-- C8, at a concrete input: the indexed miniblock `m1` between two new ones, on
the shard of its sender. -/
theorem C8_indexed_miniblock_partial_update_witness :
    sampleOracle (([sampleMb "m0" 0] ++ sampleMb "m1" 0 :: [sampleMb "m2" 0]).map
      (fun x => x.Hash)) miniblocksIndex = .ok sampleExists ∧
    sampleExists.get (sampleMb "m1" 0).Hash = true ∧
    (serializeBulkMiniBlocks sampleEnv 0 ([sampleMb "m0" 0] ++ sampleMb "m1" 0 :: [sampleMb "m2" 0])
        sampleOracle).1
      = [sampleMb "m0" 0].foldl (serializeBulkMiniBlocks.step sampleEnv 0 sampleExists) "" ++
        ("\x7b \"update\" : \x7b \"_id\" : \"" ++ "m1" ++ "\" \x7d \x7d\n" ++
          (if 0 = (sampleMb "m1" 0).SenderShardID then
            "\x7b \"doc\" : \x7b \"senderBlockHash\" : \"" ++ "sb" ++ "\" \x7d \x7d"
          else
            "\x7b \"doc\" : \x7b \"receiverBlockHash\" : \"" ++ "rb" ++ "\" \x7d \x7d")
          ++ "\n") ++
        [sampleMb "m2" 0].foldl (serializeBulkMiniBlocks.step sampleEnv 0 sampleExists) "" :=
  ⟨rfl, by decide,
    C8_indexed_miniblock_partial_update sampleEnv 0 [sampleMb "m0" 0] [sampleMb "m2" 0]
      (sampleMb "m1" 0) sampleOracle sampleExists rfl (by decide)⟩

/-- C9. For a miniblock that the existence map does not report as already
indexed and whose marshalling succeeds with `m`, the buffer returned by
`serializeBulkMiniBlocks` holds, between what is written for the miniblocks
before it and for those after it, the `index` action line for `mb.Hash` followed
by `m` and a newline. -/
theorem C9_new_miniblock_full_insert (env : Externals) (hdrShardID : Nat)
    (before after : List Miniblock) (mb : Miniblock)
    (oracle : List String → String → Except Error BoolMap) (existsInDb : BoolMap) (m : String)
    (horacle : oracle ((before ++ mb :: after).map (fun x => x.Hash)) miniblocksIndex
      = .ok existsInDb)
    (hnew : existsInDb.get mb.Hash = false)
    (hm : env.marshalMiniblock mb = .ok m) :
    (serializeBulkMiniBlocks env hdrShardID (before ++ mb :: after) oracle).1
      = before.foldl (serializeBulkMiniBlocks.step env hdrShardID existsInDb) "" ++
        ("\x7b \"index\" : \x7b \"_id\" : \"" ++ mb.Hash ++ "\", \"_type\" : \"_doc\" \x7d \x7d\n"
          ++ m ++ "\n") ++
        after.foldl (serializeBulkMiniBlocks.step env hdrShardID existsInDb) "" := by
  rw [serializeBulkMiniBlocks_split env hdrShardID before after mb oracle existsInDb horacle]
  have hstep : serializeBulkMiniBlocks.step env hdrShardID existsInDb "" mb
      = "\x7b \"index\" : \x7b \"_id\" : \"" ++ mb.Hash ++ "\", \"_type\" : \"_doc\" \x7d \x7d\n"
          ++ m ++ "\n" := by
    simp only [serializeBulkMiniBlocks.step, hnew, hm, sprintf_index, prepareBufferMiniblocks]
    simp [indexActionLine, String.append_assoc]
  rw [hstep]

/-- C9, at a concrete input: the new miniblock `m2` after an indexed one. -/
theorem C9_new_miniblock_full_insert_witness :
    sampleOracle (([sampleMb "m1" 0] ++ sampleMb "m2" 0 :: []).map (fun x => x.Hash))
      miniblocksIndex = .ok sampleExists ∧
    sampleExists.get (sampleMb "m2" 0).Hash = false ∧
    sampleEnv.marshalMiniblock (sampleMb "m2" 0) = .ok "\x7b\"hash\":\"m2\"\x7d" ∧
    (serializeBulkMiniBlocks sampleEnv 1 ([sampleMb "m1" 0] ++ sampleMb "m2" 0 :: []) sampleOracle).1
      = [sampleMb "m1" 0].foldl (serializeBulkMiniBlocks.step sampleEnv 1 sampleExists) "" ++
        ("\x7b \"index\" : \x7b \"_id\" : \"" ++ "m2" ++ "\", \"_type\" : \"_doc\" \x7d \x7d\n"
          ++ "\x7b\"hash\":\"m2\"\x7d" ++ "\n") ++
        ([] : List Miniblock).foldl (serializeBulkMiniBlocks.step sampleEnv 1 sampleExists) "" :=
  ⟨rfl, by decide, by decide,
    C9_new_miniblock_full_insert sampleEnv 1 [sampleMb "m1" 0] [] (sampleMb "m2" 0) sampleOracle
      sampleExists _ rfl (by decide) (by decide)⟩

/-! ### Failure of one transaction -/

/-- A value in the range of a 64-bit signed integer is not changed by the wrap-around. -/
theorem wrapInt64_of_bounds (x : Int) (h1 : -9223372036854775808 ≤ x)
    (h2 : x < 9223372036854775808) : wrapInt64 x = x := by
  unfold wrapInt64
  norm_num
  omega

/-- The values of the two constants, in nanoseconds. -/
theorem backOff_constants : backOffTime = 10000000000 ∧ maxBackOff = 300000000000 := by
  decide

/-- Below the ceiling, a positive back-off grows by its fifth, rounded down. -/
theorem increaseBackOffTime_of_pos {Item : Type} (d : dataDispatcher Item)
    (hpos : 0 < d.backOffTime) (hlt : d.backOffTime < maxBackOff) :
    d.increaseBackOffTime.backOffTime = d.backOffTime + d.backOffTime / 5 := by
  have hmax := backOff_constants.2
  have hne : d.backOffTime ≠ 0 := by omega
  have hge : ¬ d.backOffTime ≥ maxBackOff := by omega
  have hdiv : Int.tdiv d.backOffTime 5 = d.backOffTime / 5 :=
    Int.tdiv_eq_ediv (by omega) (by decide)
  simp only [dataDispatcher.increaseBackOffTime, hne, hge, if_false, hdiv]
  apply wrapInt64_of_bounds <;> omega

/-- From zero, the back-off becomes the base. -/
theorem increaseBackOffTime_of_zero {Item : Type} (d : dataDispatcher Item)
    (h0 : d.backOffTime = 0) : d.increaseBackOffTime.backOffTime = backOffTime := by
  simp [dataDispatcher.increaseBackOffTime, h0]

/-- At or above the ceiling, the back-off is left as it is. -/
theorem increaseBackOffTime_of_ge {Item : Type} (d : dataDispatcher Item)
    (hne : d.backOffTime ≠ 0) (hge : d.backOffTime ≥ maxBackOff) :
    d.increaseBackOffTime.backOffTime = d.backOffTime := by
  simp [dataDispatcher.increaseBackOffTime, hne, hge]

/-- The range of the back-off is kept by `increaseBackOffTime`. -/
theorem increaseBackOffTime_inRange {Item : Type} (d : dataDispatcher Item)
    (h : BackOffInRange d.backOffTime) : BackOffInRange d.increaseBackOffTime.backOffTime := by
  have hc := backOff_constants
  rcases h with h | ⟨h1, h2⟩
  · rw [increaseBackOffTime_of_zero d h, hc.1]
    exact Or.inr ⟨le_refl _, by decide⟩
  · by_cases hge : d.backOffTime ≥ maxBackOff
    · rw [increaseBackOffTime_of_ge d (by omega) hge]
      exact Or.inr ⟨h1, h2⟩
    · rw [increaseBackOffTime_of_pos d (by omega) (by omega)]
      refine Or.inr ⟨by omega, ?_⟩
      rw [hc.2] at hge
      omega

/-- The back-off never decreases on a state in range. -/
theorem le_increaseBackOffTime {Item : Type} (d : dataDispatcher Item)
    (h : BackOffInRange d.backOffTime) :
    d.backOffTime ≤ d.increaseBackOffTime.backOffTime := by
  have hc := backOff_constants
  rcases h with h | ⟨h1, h2⟩
  · rw [increaseBackOffTime_of_zero d h, hc.1, h]
    decide
  · by_cases hge : d.backOffTime ≥ maxBackOff
    · rw [increaseBackOffTime_of_ge d (by omega) hge]
    · rw [increaseBackOffTime_of_pos d (by omega) (by omega)]
      omega

/-- A pass of `doWork` on a back-off error is `increaseBackOffTime`. -/
theorem doWorkPass_backOff {Item : Type} (d : dataDispatcher Item) (err : Option SaveError)
    (h : errorsIsErrBackOff err = true) :
    d.doWorkPass err = (d.increaseBackOffTime, some d.increaseBackOffTime.backOffTime, true) := by
  simp [dataDispatcher.doWorkPass, h]

/-- A pass of `doWork` on any other result sets the back-off to zero. -/
theorem doWorkPass_other {Item : Type} (d : dataDispatcher Item) (err : Option SaveError)
    (h : errorsIsErrBackOff err = false) :
    (d.doWorkPass err).1 = { d with backOffTime := 0 } := by
  simp only [dataDispatcher.doWorkPass, h]
  cases err <;> simp

/-- A call of `Add` that returns leaves the back-off and the capacity as they are. -/
theorem add_fields {Item : Type} (d d1 : dataDispatcher Item) (item : Option Item)
    (h : d.Add item = some d1) :
    d1.backOffTime = d.backOffTime ∧ d1.chanCapacity = d.chanCapacity := by
  unfold dataDispatcher.Add at h
  split at h
  · injection h with h
    subst h
    exact ⟨rfl, rfl⟩
  · split at h
    · injection h with h
      subst h
      exact ⟨rfl, rfl⟩
    · split at h
      · injection h with h
        subst h
        exact ⟨rfl, rfl⟩
      · exact absurd h (by simp)

/-- The `select` of the worker leaves the back-off as it is. -/
theorem startWorkerSelect_backOff {Item : Type} (d : dataDispatcher Item) :
    d.startWorkerSelect.backOffTime = d.backOffTime := by
  unfold dataDispatcher.startWorkerSelect
  split
  · split <;> rfl
  · rfl

/-- The return of the worker leaves the back-off as it is. -/
theorem startWorkerDone_backOff {Item : Type} (d : dataDispatcher Item) :
    d.startWorkerDone.backOffTime = d.backOffTime := by
  unfold dataDispatcher.startWorkerDone
  split <;> rfl

/-- A call of `Save` by the worker changes the back-off as a pass of `doWork`
does, or not at all. -/
theorem workerSave_backOff {Item : Type} (d : dataDispatcher Item) (err : Option SaveError) :
    (d.workerSave err).backOffTime = (d.doWorkPass err).1.backOffTime ∨
    (d.workerSave err).backOffTime = d.backOffTime := by
  unfold dataDispatcher.workerSave
  split
  · left
    rcases hp : d.doWorkPass err with ⟨d1, slept, cont⟩
    cases cont <;> rfl
  · right
    rfl

/-- A property of the back-off that holds at zero and is kept by
`increaseBackOffTime` holds in every reachable state. -/
theorem reachable_induction {Item : Type} (P : Int → Prop) (h0 : P 0)
    (hstep : ∀ d : dataDispatcher Item, P d.backOffTime → P d.increaseBackOffTime.backOffTime)
    (d : dataDispatcher Item) (h : Reachable d) : P d.backOffTime := by
  have hpass : ∀ (e : dataDispatcher Item) (err : Option SaveError), P e.backOffTime →
      P (e.doWorkPass err).1.backOffTime := by
    intro e err he
    cases hb : errorsIsErrBackOff err
    · rw [doWorkPass_other e err hb]
      exact h0
    · rw [doWorkPass_backOff e err hb]
      exact hstep e he
  induction h with
  | new cacheSize chanLimit d hnew =>
    unfold NewDataDispatcher at hnew
    split at hnew
    · exact absurd hnew (by simp)
    · split at hnew
      · exact absurd hnew (by simp)
      · injection hnew with hnew
        subst hnew
        exact h0
  | add d d1 item _ hadd ih =>
    rw [(add_fields d d1 item hadd).1]
    exact ih
  | select d _ ih =>
    rw [startWorkerSelect_backOff]
    exact ih
  | done d _ ih =>
    rw [startWorkerDone_backOff]
    exact ih
  | save d err _ ih =>
    rcases workerSave_backOff d err with hs | hs
    · rw [hs]
      exact hpass d err ih
    · rw [hs]
      exact ih
  | pass d err _ ih => exact hpass d err ih

/-- Every reachable state has its back-off in range. -/
theorem reachable_inRange {Item : Type} (d : dataDispatcher Item) (h : Reachable d) :
    BackOffInRange d.backOffTime :=
  reachable_induction BackOffInRange (Or.inl rfl)
    (fun e he => increaseBackOffTime_inRange e he) d h

/-- A reachable state stays reachable under `increaseBackOffTime`. -/
theorem reachable_increaseBackOffTime {Item : Type} (d : dataDispatcher Item)
    (h : Reachable d) : Reachable d.increaseBackOffTime := by
  have hp := Reachable.pass d (some { message := "", isBackOff := true }) h
  rw [doWorkPass_backOff d (some { message := "", isBackOff := true }) rfl] at hp
  exact hp

/-- A reachable state stays reachable under any number of back-off failures. -/
theorem reachable_iterate {Item : Type} (d : dataDispatcher Item) (h : Reachable d) (n : Nat) :
    Reachable (dataDispatcher.increaseBackOffTime^[n] d) := by
  induction n with
  | zero => exact h
  | succ n ih =>
    rw [Function.iterate_succ_apply']
    exact reachable_increaseBackOffTime _ ih

/-- C11. In every reachable state of the dispatcher, `increaseBackOffTime` does
not decrease the back-off duration, a pass of `doWork` on a back-off error does
not decrease it either, and in a run of consecutive back-off failures each
duration is at least the one before it. -/
theorem C11_backoff_never_decreases {Item : Type} (d : dataDispatcher Item)
    (h : Reachable d) :
    d.backOffTime ≤ d.increaseBackOffTime.backOffTime ∧
    (∀ err, errorsIsErrBackOff err = true →
      d.backOffTime ≤ (d.doWorkPass err).1.backOffTime) ∧
    ∀ n : Nat, (dataDispatcher.increaseBackOffTime^[n] d).backOffTime
      ≤ (dataDispatcher.increaseBackOffTime^[n + 1] d).backOffTime := by
  refine ⟨le_increaseBackOffTime d (reachable_inRange d h), ?_, ?_⟩
  · intro err herr
    rw [doWorkPass_backOff d err herr]
    exact le_increaseBackOffTime d (reachable_inRange d h)
  · intro n
    rw [Function.iterate_succ_apply']
    exact le_increaseBackOffTime _ (reachable_inRange _ (reachable_iterate d h n))

/-- C11, at a concrete input: the fresh dispatcher of capacity 2. -/
theorem C11_backoff_never_decreases_witness :
    Reachable sampleDispatcher ∧
    sampleDispatcher.backOffTime ≤ sampleDispatcher.increaseBackOffTime.backOffTime ∧
    (∀ err, errorsIsErrBackOff err = true →
      sampleDispatcher.backOffTime ≤ (sampleDispatcher.doWorkPass err).1.backOffTime) ∧
    ∀ n : Nat, (dataDispatcher.increaseBackOffTime^[n] sampleDispatcher).backOffTime
      ≤ (dataDispatcher.increaseBackOffTime^[n + 1] sampleDispatcher).backOffTime :=
  ⟨Reachable.new 2 maxChanCapacity sampleDispatcher rfl,
    C11_backoff_never_decreases sampleDispatcher
      (Reachable.new 2 maxChanCapacity sampleDispatcher rfl)⟩

/-- C12. The ceiling is exceeded: from the fresh dispatcher, the nineteenth
consecutive back-off failure leaves the back-off at 266233332801 ns, below the
ceiling of 300000000000 ns, and the twentieth raises it to 319479999361 ns,
above the ceiling; that state is reachable, and the back-off stays there. -/
theorem C12_backoff_exceeds_ceiling :
    (NewDataDispatcher 2 : Except Error (dataDispatcher String)) = .ok sampleDispatcher ∧
    (dataDispatcher.increaseBackOffTime^[19] sampleDispatcher).backOffTime = 266233332801 ∧
    (dataDispatcher.increaseBackOffTime^[20] sampleDispatcher).backOffTime = 319479999361 ∧
    maxBackOff < (dataDispatcher.increaseBackOffTime^[20] sampleDispatcher).backOffTime ∧
    (dataDispatcher.increaseBackOffTime^[21] sampleDispatcher).backOffTime = 319479999361 ∧
    Reachable (dataDispatcher.increaseBackOffTime^[20] sampleDispatcher) := by
  have h19 : (dataDispatcher.increaseBackOffTime^[19] sampleDispatcher).backOffTime
      = 266233332801 := by
    set_option maxRecDepth 100000 in decide
  have h20 : (dataDispatcher.increaseBackOffTime^[20] sampleDispatcher).backOffTime
      = 319479999361 := by
    set_option maxRecDepth 100000 in decide
  have h21 : (dataDispatcher.increaseBackOffTime^[21] sampleDispatcher).backOffTime
      = 319479999361 := by
    set_option maxRecDepth 100000 in decide
  refine ⟨rfl, h19, h20, ?_, h21, ?_⟩
  · rw [h20]
    decide
  exact reachable_iterate sampleDispatcher (Reachable.new 2 maxChanCapacity sampleDispatcher rfl) 20

/-! ### The loop of `doWork` -/

/-- When the loop of `doWork` returns, the back-off is zero. -/
theorem doWorkLoop_backOff_zero {Item : Type} (saves : List (Option SaveError)) :
    ∀ (d : dataDispatcher Item) (calls : Nat) (sleeps : List Int) (r : WorkRun Item),
      dataDispatcher.doWorkLoop saves d calls sleeps = some r →
      r.dispatcher.backOffTime = 0 := by
  induction saves with
  | nil =>
    intro d calls sleeps r h
    simp [dataDispatcher.doWorkLoop] at h
  | cons err rest ih =>
    intro d calls sleeps r h
    cases hb : errorsIsErrBackOff err
    · cases err with
      | none =>
        simp [dataDispatcher.doWorkLoop, dataDispatcher.doWorkPass, hb] at h
        subst h
        rfl
      | some e =>
        simp only [dataDispatcher.doWorkLoop, dataDispatcher.doWorkPass, hb, Option.isSome_some,
          Bool.false_eq_true, if_false, if_true] at h
        exact ih _ _ _ r h
    · simp only [dataDispatcher.doWorkLoop, dataDispatcher.doWorkPass, hb, if_true] at h
      exact ih _ _ _ r h

/-- C13. Whenever `doWork` returns, the back-off duration of the dispatcher is
zero, whatever it was before, and the next call of `increaseBackOffTime` starts
again from the base of 10 s. -/
theorem C13_backoff_zero_after_doWork {Item : Type} (d : dataDispatcher Item)
    (saves : List (Option SaveError)) (r : WorkRun Item) (h : d.doWork saves = some r) :
    r.dispatcher.backOffTime = 0 ∧
    r.dispatcher.increaseBackOffTime.backOffTime = backOffTime ∧
    backOffTime = 10 * timeSecond := by
  have h0 := doWorkLoop_backOff_zero saves d 0 [] r h
  exact ⟨h0, increaseBackOffTime_of_zero _ h0, by decide⟩

/-- C13, at a concrete input: two back-off failures, then a success, from a
dispatcher whose back-off is 12 s. -/
theorem C13_backoff_zero_after_doWork_witness :
    ({ sampleDispatcher with backOffTime := 12000000000 } : dataDispatcher String).doWork
        [some sampleBackOff, some sampleBackOff, none]
      = some { dispatcher := sampleDispatcher, saveCalls := 3,
               sleeps := [14400000000, 17280000000] } ∧
    sampleDispatcher.backOffTime = 0 ∧
    sampleDispatcher.increaseBackOffTime.backOffTime = backOffTime ∧
    backOffTime = 10 * timeSecond :=
  ⟨by decide,
    C13_backoff_zero_after_doWork
      ({ sampleDispatcher with backOffTime := 12000000000 } : dataDispatcher String)
      [some sampleBackOff, some sampleBackOff, none]
      { dispatcher := sampleDispatcher, saveCalls := 3, sleeps := [14400000000, 17280000000] }
      (by decide)⟩

/-! ### Growth of the back-off -/

/-- The next back-off depends on the current back-off only. -/
theorem increaseBackOffTime_congr {Item Item2 : Type} (d : dataDispatcher Item)
    (d2 : dataDispatcher Item2) (h : d.backOffTime = d2.backOffTime) :
    d.increaseBackOffTime.backOffTime = d2.increaseBackOffTime.backOffTime := by
  unfold dataDispatcher.increaseBackOffTime
  rw [h]
  split
  · rfl
  · split
    · exact h
    · rfl

/-- The back-off after `k` failures depends on the starting back-off only. -/
theorem iterate_increaseBackOffTime_congr {Item Item2 : Type} (d : dataDispatcher Item)
    (d2 : dataDispatcher Item2) (h : d.backOffTime = d2.backOffTime) (k : Nat) :
    (dataDispatcher.increaseBackOffTime^[k] d).backOffTime
      = (dataDispatcher.increaseBackOffTime^[k] d2).backOffTime := by
  induction k with
  | zero => exact h
  | succ k ih =>
    rw [Function.iterate_succ_apply', Function.iterate_succ_apply']
    exact increaseBackOffTime_congr _ _ ih

/-- The back-off stays in range along a run of failures. -/
theorem iterate_inRange {Item : Type} (d : dataDispatcher Item)
    (h : BackOffInRange d.backOffTime) (k : Nat) :
    BackOffInRange (dataDispatcher.increaseBackOffTime^[k] d).backOffTime := by
  induction k with
  | zero => exact h
  | succ k ih =>
    rw [Function.iterate_succ_apply']
    exact increaseBackOffTime_inRange _ ih

/-- After at least one failure the back-off is at least the base. -/
theorem iterate_pos {Item : Type} (d : dataDispatcher Item)
    (h : BackOffInRange d.backOffTime) (k : Nat) (hk : 1 ≤ k) :
    10000000000 ≤ (dataDispatcher.increaseBackOffTime^[k] d).backOffTime := by
  obtain ⟨j, rfl⟩ : ∃ j, k = j + 1 := ⟨k - 1, by omega⟩
  rw [Function.iterate_succ_apply']
  have hj := iterate_inRange d h j
  have hc := backOff_constants
  rcases hj with h0 | ⟨h1, h2⟩
  · rw [increaseBackOffTime_of_zero _ h0, hc.1]
  · have hle := le_increaseBackOffTime _ (Or.inr ⟨h1, h2⟩)
    omega

/-- The first eleven back-off durations from zero, cleared of denominators. -/
theorem iterate_exact_unit (k : Nat) (h1 : 1 ≤ k) (h11 : k ≤ 11) :
    (5 : Int) ^ (k - 1) * (dataDispatcher.increaseBackOffTime^[k]
        ({ backOffTime := 0, chanWorkItems := [], chanCapacity := 0 } :
          dataDispatcher Unit)).backOffTime
      = 10000000000 * 6 ^ (k - 1) := by
  interval_cases k <;> (set_option maxRecDepth 100000 in decide)

/-- From the twentieth failure on, the back-off from zero no longer changes. -/
theorem iterate_fixed_unit (j : Nat) :
    (dataDispatcher.increaseBackOffTime^[20 + j]
        ({ backOffTime := 0, chanWorkItems := [], chanCapacity := 0 } :
          dataDispatcher Unit)).backOffTime = 319479999361 := by
  induction j with
  | zero => set_option maxRecDepth 100000 in decide
  | succ j ih =>
    rw [show 20 + (j + 1) = (20 + j) + 1 from rfl, Function.iterate_succ_apply']
    have hc := backOff_constants
    rw [increaseBackOffTime_of_ge _ (by omega) (by omega)]
    exact ih

/-- From the twelfth failure on, the back-off from zero is below the power of
1.2, cleared of denominators. -/
theorem iterate_below_unit (k : Nat) (h12 : 12 ≤ k) :
    (5 : Int) ^ (k - 1) * (dataDispatcher.increaseBackOffTime^[k]
        ({ backOffTime := 0, chanWorkItems := [], chanCapacity := 0 } :
          dataDispatcher Unit)).backOffTime
      < 10000000000 * 6 ^ (k - 1) := by
  by_cases h20 : k ≤ 19
  · interval_cases k <;> (set_option maxRecDepth 100000 in decide)
  · obtain ⟨j, rfl⟩ : ∃ j, k = 20 + j := ⟨k - 20, by omega⟩
    rw [iterate_fixed_unit j, show 20 + j - 1 = 19 + j by omega]
    induction j with
    | zero => norm_num
    | succ j ih =>
      have ih1 := ih (by omega) (by omega)
      calc (5 : Int) ^ (19 + (j + 1)) * 319479999361
          = 5 * (5 ^ (19 + j) * 319479999361) := by ring
        _ < 5 * (10000000000 * 6 ^ (19 + j)) := by linarith
        _ ≤ 10000000000 * 6 ^ (19 + (j + 1)) := by
          have h6 : (0 : Int) < 6 ^ (19 + j) := by positivity
          rw [show 19 + (j + 1) = (19 + j) + 1 from rfl, pow_succ]
          linarith

/-- C14, as stated, fails: the eleventh consecutive back-off failure gives
61917364224 ns, below the ceiling, and the twelfth gives 74300837068 ns, which
is neither 10 s x 1.2^11 nor 1.2 times the eleventh. -/
theorem C14_twelfth_failure_counterexample :
    (dataDispatcher.increaseBackOffTime^[11] sampleDispatcher).backOffTime = 61917364224 ∧
    (61917364224 : Int) < maxBackOff ∧
    (dataDispatcher.increaseBackOffTime^[12] sampleDispatcher).backOffTime = 74300837068 ∧
    (((dataDispatcher.increaseBackOffTime^[12] sampleDispatcher).backOffTime : Int) : ℚ)
      ≠ 10000000000 * (12 / 10) ^ 11 ∧
    (((dataDispatcher.increaseBackOffTime^[12] sampleDispatcher).backOffTime : Int) : ℚ)
      ≠ (12 / 10) *
        (((dataDispatcher.increaseBackOffTime^[11] sampleDispatcher).backOffTime : Int) : ℚ) := by
  have h11 : (dataDispatcher.increaseBackOffTime^[11] sampleDispatcher).backOffTime
      = 61917364224 := by
    set_option maxRecDepth 100000 in decide
  have h12 : (dataDispatcher.increaseBackOffTime^[12] sampleDispatcher).backOffTime
      = 74300837068 := by
    set_option maxRecDepth 100000 in decide
  refine ⟨h11, by decide, h12, ?_, ?_⟩
  · rw [h12]
    norm_num
  · rw [h12, h11]
    norm_num

/-- C14, amended. Starting from back-off 0, the first back-off failure sets the
duration to 10 s; each later consecutive failure, while the previous duration
`p` is below the ceiling, sets it to `p + p / 5` nanoseconds with the integer
quotient, which is at most 1.2 times `p` and less than one nanosecond below it;
the k-th duration is exactly 10 s x 1.2^(k-1) for k from 1 to 11, and from the
twelfth failure on it is strictly below 10 s x 1.2^(k-1). -/
theorem C14_backoff_growth {Item : Type} (d : dataDispatcher Item) (h0 : d.backOffTime = 0) :
    d.increaseBackOffTime.backOffTime = 10 * timeSecond ∧
    (∀ k : Nat, 1 ≤ k →
      (dataDispatcher.increaseBackOffTime^[k] d).backOffTime < maxBackOff →
      (dataDispatcher.increaseBackOffTime^[k + 1] d).backOffTime
        = (dataDispatcher.increaseBackOffTime^[k] d).backOffTime
          + (dataDispatcher.increaseBackOffTime^[k] d).backOffTime / 5 ∧
      5 * (dataDispatcher.increaseBackOffTime^[k + 1] d).backOffTime
        ≤ 6 * (dataDispatcher.increaseBackOffTime^[k] d).backOffTime ∧
      6 * (dataDispatcher.increaseBackOffTime^[k] d).backOffTime
        < 5 * (dataDispatcher.increaseBackOffTime^[k + 1] d).backOffTime + 5) ∧
    (∀ k : Nat, 1 ≤ k → k ≤ 11 →
      (((dataDispatcher.increaseBackOffTime^[k] d).backOffTime : Int) : ℚ)
        = 10000000000 * (12 / 10) ^ (k - 1)) ∧
    (∀ k : Nat, 12 ≤ k →
      (((dataDispatcher.increaseBackOffTime^[k] d).backOffTime : Int) : ℚ)
        < 10000000000 * (12 / 10) ^ (k - 1)) := by
  refine ⟨?_, ?_, ?_, ?_⟩
  · rw [increaseBackOffTime_of_zero d h0]
    decide
  · intro k hk hlt
    have hpos := iterate_pos d (Or.inl h0) k hk
    have hstep := increaseBackOffTime_of_pos (dataDispatcher.increaseBackOffTime^[k] d)
      (by omega) hlt
    rw [Function.iterate_succ_apply', hstep]
    refine ⟨rfl, ?_, ?_⟩ <;> omega
  · intro k hk hk11
    have hunit := iterate_exact_unit k hk hk11
    rw [← iterate_increaseBackOffTime_congr d _ h0 k] at hunit
    have hq := congrArg (fun z : Int => (z : ℚ)) hunit
    simp only [Int.cast_mul, Int.cast_pow, Int.cast_ofNat] at hq
    have h5 : ((5 : ℚ) ^ (k - 1)) ≠ 0 := pow_ne_zero _ (by norm_num)
    have h65 : ((12 : ℚ) / 10) ^ (k - 1) = 6 ^ (k - 1) / 5 ^ (k - 1) := by
      rw [← div_pow]
      norm_num
    rw [h65]
    field_simp
    linarith
  · intro k hk12
    have hunit := iterate_below_unit k hk12
    rw [← iterate_increaseBackOffTime_congr d _ h0 k] at hunit
    have hq : (5 : ℚ) ^ (k - 1)
        * (((dataDispatcher.increaseBackOffTime^[k] d).backOffTime : Int) : ℚ)
        < 10000000000 * 6 ^ (k - 1) := by
      exact_mod_cast hunit
    have h5 : (0 : ℚ) < 5 ^ (k - 1) := pow_pos (by norm_num) _
    have h65 : ((12 : ℚ) / 10) ^ (k - 1) = 6 ^ (k - 1) / 5 ^ (k - 1) := by
      rw [← div_pow]
      norm_num
    rw [h65, ← mul_div_assoc, lt_div_iff₀ h5]
    linarith

/-- C14, amended, at a concrete input: the fresh dispatcher of capacity 2, at
the first, third, twelfth and thirteenth failure. -/
theorem C14_backoff_growth_witness :
    sampleDispatcher.backOffTime = 0 ∧
    sampleDispatcher.increaseBackOffTime.backOffTime = 10 * timeSecond ∧
    (((dataDispatcher.increaseBackOffTime^[3] sampleDispatcher).backOffTime : Int) : ℚ)
      = 10000000000 * (12 / 10) ^ (3 - 1) ∧
    (((dataDispatcher.increaseBackOffTime^[12] sampleDispatcher).backOffTime : Int) : ℚ)
      < 10000000000 * (12 / 10) ^ (12 - 1) ∧
    (dataDispatcher.increaseBackOffTime^[12] sampleDispatcher).backOffTime < maxBackOff ∧
    (dataDispatcher.increaseBackOffTime^[12 + 1] sampleDispatcher).backOffTime
      = (dataDispatcher.increaseBackOffTime^[12] sampleDispatcher).backOffTime
        + (dataDispatcher.increaseBackOffTime^[12] sampleDispatcher).backOffTime / 5 :=
  have h := C14_backoff_growth sampleDispatcher rfl
  have hlt : (dataDispatcher.increaseBackOffTime^[12] sampleDispatcher).backOffTime
      < maxBackOff := by
    set_option maxRecDepth 100000 in decide
  ⟨rfl, h.1, h.2.2.1 3 (by decide) (by decide), h.2.2.2 12 (by decide), hlt,
    (h.2.1 12 (by decide) hlt).1⟩

/-! ### Retries of `doWork` -/

/-- C15. In a reachable state, when `Save` returns an error that is not the
back-off error, the pass of `doWork` goes on with the loop, so that `Save` is
invoked again on the same item, after a sleep of `durationBetweenErrorRetry`;
it sets the back-off to zero, which is not larger than the back-off before. -/
theorem C15_other_error_keeps_backoff {Item : Type} (d : dataDispatcher Item)
    (h : Reachable d) (err : SaveError) (hother : err.isBackOff = false) :
    (d.doWorkPass (some err)).2.2 = true ∧
    (d.doWorkPass (some err)).2.1 = some durationBetweenErrorRetry ∧
    (d.doWorkPass (some err)).1.backOffTime = 0 ∧
    (d.doWorkPass (some err)).1.backOffTime ≤ d.backOffTime ∧
    ∀ rest : List (Option SaveError),
      d.doWork (some err :: rest)
        = dataDispatcher.doWorkLoop rest { d with backOffTime := 0 } 1
            [durationBetweenErrorRetry] := by
  have hpass : d.doWorkPass (some err)
      = ({ d with backOffTime := 0 }, some durationBetweenErrorRetry, true) := by
    simp [dataDispatcher.doWorkPass, errorsIsErrBackOff, hother]
  have hrange := reachable_inRange d h
  refine ⟨by rw [hpass], by rw [hpass], by rw [hpass], ?_, ?_⟩
  · rw [hpass]
    rcases hrange with h0 | ⟨h1, _⟩
    · exact le_of_eq h0.symm
    · show (0 : Int) ≤ d.backOffTime
      omega
  · intro rest
    simp [dataDispatcher.doWork, dataDispatcher.doWorkLoop, hpass]

/-- C15, at a concrete input: a plain failure after two back-off failures. -/
theorem C15_other_error_keeps_backoff_witness :
    Reachable (dataDispatcher.increaseBackOffTime^[2] sampleDispatcher) ∧
    sampleFailure.isBackOff = false ∧
    (dataDispatcher.increaseBackOffTime^[2] sampleDispatcher).backOffTime = 12000000000 ∧
    ((dataDispatcher.increaseBackOffTime^[2] sampleDispatcher).doWorkPass
      (some sampleFailure)).1.backOffTime = 0 :=
  have hr : Reachable (dataDispatcher.increaseBackOffTime^[2] sampleDispatcher) :=
    reachable_iterate sampleDispatcher (Reachable.new 2 maxChanCapacity sampleDispatcher rfl) 2
  ⟨hr, rfl, by decide,
    (C15_other_error_keeps_backoff (dataDispatcher.increaseBackOffTime^[2] sampleDispatcher) hr
      sampleFailure rfl).2.2.1⟩

/-- A pass of `doWork` on an error goes on with the loop. -/
theorem doWorkPass_error_continues {Item : Type} (d : dataDispatcher Item) (e : SaveError) :
    (d.doWorkPass (some e)).2.2 = true := by
  unfold dataDispatcher.doWorkPass
  split <;> simp

/-- The loop of `doWork` consumes a run of errors, one call of `Save` for each. -/
theorem doWorkLoop_errors {Item : Type} (fails : List SaveError)
    (tail : List (Option SaveError)) :
    ∀ (d : dataDispatcher Item) (calls : Nat) (sleeps : List Int),
      ∃ (d1 : dataDispatcher Item) (sleeps1 : List Int),
        dataDispatcher.doWorkLoop (fails.map some ++ tail) d calls sleeps
          = dataDispatcher.doWorkLoop tail d1 (calls + fails.length) sleeps1 := by
  induction fails with
  | nil =>
    intro d calls sleeps
    exact ⟨d, sleeps, rfl⟩
  | cons e rest ih =>
    intro d calls sleeps
    have hc := doWorkPass_error_continues d e
    obtain ⟨d1, sleeps1, hrec⟩ := ih (d.doWorkPass (some e)).1 (calls + 1)
      (sleeps ++ (d.doWorkPass (some e)).2.1.toList)
    refine ⟨d1, sleeps1, ?_⟩
    rw [List.map_cons, List.cons_append, dataDispatcher.doWorkLoop]
    rcases hp : d.doWorkPass (some e) with ⟨dd, slept, cont⟩
    rw [hp] at hc hrec
    simp only at hc
    subst hc
    simp only
    rw [hrec, List.length_cons]
    congr 1
    omega

/-- C16. For `k` failures of either kind followed by a success, `doWork`
returns after exactly `k + 1` invocations of `Save`, whatever results would
follow; and on the `k` failures alone it has not returned. -/
theorem C16_doWork_retries_until_success {Item : Type} (d : dataDispatcher Item)
    (fails : List SaveError) (later : List (Option SaveError)) :
    (∃ r : WorkRun Item, d.doWork (fails.map some ++ none :: later) = some r ∧
      r.saveCalls = fails.length + 1) ∧
    d.doWork (fails.map some) = none := by
  constructor
  · obtain ⟨d1, sleeps1, h⟩ := doWorkLoop_errors fails (none :: later) d 0 []
    refine ⟨{ dispatcher := { d1 with backOffTime := 0 }, saveCalls := fails.length + 1,
              sleeps := sleeps1 }, ?_, rfl⟩
    rw [dataDispatcher.doWork, h]
    simp [dataDispatcher.doWorkLoop, dataDispatcher.doWorkPass, errorsIsErrBackOff]
  · obtain ⟨d1, sleeps1, h⟩ := doWorkLoop_errors fails [] d 0 []
    rw [List.append_nil] at h
    rw [dataDispatcher.doWork, h]
    rfl

/-! ### Construction and queue -/

/-- What a call of `Add` with a non-nil item that returns has done: it has
handed the item to the worker blocked in its `select`, or appended it to the
buffer, which had room. -/
theorem add_cases {Item : Type} (d d1 : dataDispatcher Item) (wi : Item)
    (h : d.Add (some wi) = some d1) :
    (d.worker = .waiting ∧ d1 = { d with worker := .working wi }) ∨
    (d.worker ≠ .waiting ∧ d.chanWorkItems.length < d.chanCapacity ∧
      d1 = { d with chanWorkItems := d.chanWorkItems ++ [wi] }) := by
  obtain ⟨b, c, cap, w⟩ := d
  cases w <;> simp only [dataDispatcher.Add] at h
  case waiting =>
    injection h with h
    exact Or.inl ⟨rfl, h.symm⟩
  all_goals
    split at h
    · injection h with h
      rename_i hroom
      exact Or.inr ⟨by simp, hroom, h.symm⟩
    · exact absurd h (by simp)

/-- A pass of `doWork` leaves the channel as it is. -/
theorem doWorkPass_chan {Item : Type} (d : dataDispatcher Item) (err : Option SaveError) :
    (d.doWorkPass err).1.chanWorkItems = d.chanWorkItems := by
  unfold dataDispatcher.doWorkPass
  split
  · simp only [dataDispatcher.increaseBackOffTime]
    split
    · rfl
    · split <;> rfl
  · split <;> rfl

/-- A pass of `doWork` leaves the state of the worker as it is. -/
theorem doWorkPass_worker {Item : Type} (d : dataDispatcher Item) (err : Option SaveError) :
    (d.doWorkPass err).1.worker = d.worker := by
  unfold dataDispatcher.doWorkPass
  split
  · simp only [dataDispatcher.increaseBackOffTime]
    split
    · rfl
    · split <;> rfl
  · split <;> rfl

/-- The worker of a reachable dispatcher is blocked in its `select` only while
the buffer of the channel is empty. -/
theorem reachable_waiting_empty {Item : Type} (d : dataDispatcher Item) (h : Reachable d) :
    d.worker = .waiting → d.chanWorkItems = [] := by
  induction h with
  | new cacheSize chanLimit d hnew =>
    intro _
    unfold NewDataDispatcher at hnew
    split at hnew
    · exact absurd hnew (by simp)
    · split at hnew
      · exact absurd hnew (by simp)
      · injection hnew with hnew
        subst hnew
        rfl
  | add d d1 item _ hadd ih =>
    cases item with
    | none =>
      simp only [dataDispatcher.Add, Option.some.injEq] at hadd
      subst hadd
      exact ih
    | some wi =>
      intro hw
      rcases add_cases d d1 wi hadd with ⟨_, h1⟩ | ⟨hne, _, h1⟩
      · subst h1
        exact absurd hw (by simp)
      · subst h1
        exact absurd hw hne
  | select d _ ih =>
    obtain ⟨b, c, cap, w⟩ := d
    cases w <;> cases c <;> simp_all [dataDispatcher.startWorkerSelect]
  | done d _ ih =>
    obtain ⟨b, c, cap, w⟩ := d
    cases w <;> simp_all [dataDispatcher.startWorkerDone]
  | save d err _ ih =>
    intro hw
    unfold dataDispatcher.workerSave at hw
    split at hw
    · rename_i wi hwork
      have hwk := doWorkPass_worker d err
      rcases hp : d.doWorkPass err with ⟨d1, slept, cont⟩
      rw [hp] at hw hwk
      simp only at hwk
      cases cont with
      | true =>
        simp only at hw
        rw [hwk, hwork] at hw
        exact absurd hw (by simp)
      | false =>
        simp only at hw
        exact absurd hw (by simp)
    · rename_i hne
      unfold dataDispatcher.workerSave
      split
      · rename_i wi hwork
        exact absurd hwork (hne wi)
      · exact ih hw
  | pass d err _ ih =>
    intro hw
    rw [doWorkPass_chan]
    rw [doWorkPass_worker] at hw
    exact ih hw

/-- C17. On every reachable dispatcher: `Add` with a nil item returns and
leaves the dispatcher unchanged, queue and back-off included. `Add` with a
non-nil item, when it returns, has put exactly that item at the end of the
items that were sent and are not handled yet (the item the worker holds, then
the buffer of the channel) and has changed neither the back-off nor the
capacity. It returns when the worker is blocked in its `select`, which happens
on an empty buffer only: the item is handed to the worker, also on a channel of
capacity 0; and it returns when the buffer has room: the item is appended to
the buffer. -/
theorem C17_add {Item : Type} (d : dataDispatcher Item) (hreach : Reachable d) :
    d.Add none = some d ∧
    (∀ (wi : Item) (d1 : dataDispatcher Item), d.Add (some wi) = some d1 →
      d1.pendingItems = d.pendingItems ++ [wi] ∧ d1.backOffTime = d.backOffTime ∧
      d1.chanCapacity = d.chanCapacity) ∧
    (∀ wi : Item, d.worker = .waiting →
      d.chanWorkItems = [] ∧ d.Add (some wi) = some { d with worker := .working wi }) ∧
    (∀ wi : Item, d.worker ≠ .waiting → d.chanWorkItems.length < d.chanCapacity →
      d.Add (some wi) = some { d with chanWorkItems := d.chanWorkItems ++ [wi] }) := by
  have hempty := reachable_waiting_empty d hreach
  refine ⟨rfl, ?_, ?_, ?_⟩
  · intro wi d1 h
    refine ⟨?_, (add_fields d d1 _ h).1, (add_fields d d1 _ h).2⟩
    rcases add_cases d d1 wi h with ⟨hw, h1⟩ | ⟨_, _, h1⟩
    · subst h1
      simp [dataDispatcher.pendingItems, dataDispatcher.workingItems, hw, hempty hw]
    · subst h1
      simp [dataDispatcher.pendingItems, dataDispatcher.workingItems]
  · intro wi hw
    refine ⟨hempty hw, ?_⟩
    simp only [dataDispatcher.Add, hw]
  · intro wi hne hroom
    obtain ⟨b, c, cap, w⟩ := d
    cases w <;> simp_all [dataDispatcher.Add]

/-- C17, at concrete inputs: a nil item and the item `block 1` on a dispatcher
of capacity 0 whose worker is blocked in its `select`, and the item `block 2`
on the fresh dispatcher of capacity 2. -/
theorem C17_add_witness :
    Reachable sampleUnbuffered ∧
    sampleUnbuffered.Add none = some sampleUnbuffered ∧
    sampleUnbuffered.Add (some "block 1")
      = some { backOffTime := 0, chanWorkItems := [], chanCapacity := 0,
               worker := .working "block 1" } ∧
    ({ backOffTime := 0, chanWorkItems := [], chanCapacity := 0,
       worker := .working "block 1" } : dataDispatcher String).pendingItems
      = sampleUnbuffered.pendingItems ++ ["block 1"] ∧
    sampleDispatcher.Add (some "block 2")
      = some { backOffTime := 0, chanWorkItems := ["block 2"], chanCapacity := 2 } :=
  have hreach : Reachable sampleUnbuffered :=
    Reachable.select { backOffTime := 0, chanWorkItems := [], chanCapacity := 0 }
      (Reachable.new 0 maxChanCapacity _ rfl)
  have h := C17_add sampleUnbuffered hreach
  have h2 := C17_add sampleDispatcher (Reachable.new 2 maxChanCapacity sampleDispatcher rfl)
  ⟨hreach, h.1, (h.2.2.1 "block 1" rfl).2, (h.2.1 "block 1" _ (h.2.2.1 "block 1" rfl).2).1,
    h2.2.2.2 "block 2" (by decide) (by decide)⟩

/-- C18, as stated, fails: the cache size `2 ^ 62` is not negative, and
`NewDataDispatcher` returns neither a dispatcher nor `ErrNegativeCacheSize` on
it: `make` panics. -/
theorem C18_huge_cacheSize_counterexample :
    (0 : Int) ≤ 4611686018427387904 ∧
    (4611686018427387904 : Int) = 2 ^ 62 ∧
    (NewDataDispatcher 4611686018427387904 : Except Error (dataDispatcher String))
      = .error panicMakechan ∧
    panicMakechan ≠ ErrNegativeCacheSize ∧
    ∀ d : dataDispatcher String, NewDataDispatcher 4611686018427387904 ≠ .ok d := by
  refine ⟨by decide, by norm_num, by decide, by decide, ?_⟩
  intro d h
  have hp : (NewDataDispatcher 4611686018427387904 : Except Error (dataDispatcher String))
      = .error panicMakechan := by decide
  rw [hp] at h
  exact absurd h (by simp)

/-- C18, amended. `NewDataDispatcher` returns `ErrNegativeCacheSize`, and no
dispatcher, exactly when the cache size is negative; for every cache size from
zero up to the largest capacity that `make` accepts it returns a dispatcher
with an empty queue of that capacity and a back-off of zero; for every larger
cache size it returns neither, `make` panics. -/
theorem C18_newDataDispatcher {Item : Type} (cacheSize chanLimit : Int) :
    ((NewDataDispatcher cacheSize chanLimit : Except Error (dataDispatcher Item))
        = .error ErrNegativeCacheSize ↔ cacheSize < 0) ∧
    (0 ≤ cacheSize → cacheSize ≤ chanLimit →
      ∃ d : dataDispatcher Item, NewDataDispatcher cacheSize chanLimit = .ok d ∧
        d.chanWorkItems = [] ∧ (d.chanCapacity : Int) = cacheSize ∧ d.backOffTime = 0 ∧
        d.pendingItems = []) ∧
    (0 ≤ cacheSize → chanLimit < cacheSize →
      (NewDataDispatcher cacheSize chanLimit : Except Error (dataDispatcher Item))
        = .error panicMakechan) := by
  have hne : panicMakechan ≠ ErrNegativeCacheSize := by decide
  refine ⟨⟨?_, ?_⟩, ?_, ?_⟩
  · intro h
    by_contra hneg
    by_cases hbig : cacheSize > chanLimit
    · simp only [NewDataDispatcher, hneg, hbig, if_false, if_true] at h
      injection h with h
      exact hne h
    · simp [NewDataDispatcher, hneg, hbig] at h
  · intro h
    simp [NewDataDispatcher, h]
  · intro h hle
    have hneg : ¬ cacheSize < 0 := by omega
    have hbig : ¬ cacheSize > chanLimit := by omega
    refine ⟨{ backOffTime := 0, chanWorkItems := [], chanCapacity := cacheSize.toNat }, ?_,
      rfl, ?_, rfl, rfl⟩
    · simp only [NewDataDispatcher, hneg, hbig, if_false]
    · exact Int.toNat_of_nonneg h
  · intro h hlt
    have hneg : ¬ cacheSize < 0 := by omega
    have hbig : cacheSize > chanLimit := hlt
    simp only [NewDataDispatcher, hneg, hbig, if_false, if_true]

/-- C18, amended, at concrete inputs: the cache sizes -1, 0, 2 and `2 ^ 62` with
the limit of linux/amd64. -/
theorem C18_newDataDispatcher_witness :
    ((NewDataDispatcher (-1) maxChanCapacity : Except Error (dataDispatcher String))
      = .error ErrNegativeCacheSize) ∧
    (0 : Int) ≤ 2 ∧ (2 : Int) ≤ maxChanCapacity ∧
    (∃ d : dataDispatcher String, NewDataDispatcher 2 maxChanCapacity = .ok d ∧
      d.chanWorkItems = [] ∧ (d.chanCapacity : Int) = 2 ∧ d.backOffTime = 0 ∧
      d.pendingItems = []) ∧
    (∃ d : dataDispatcher String, NewDataDispatcher 0 maxChanCapacity = .ok d ∧
      d.chanWorkItems = [] ∧ (d.chanCapacity : Int) = 0 ∧ d.backOffTime = 0 ∧
      d.pendingItems = []) ∧
    maxChanCapacity < 4611686018427387904 ∧
    (NewDataDispatcher 4611686018427387904 maxChanCapacity :
      Except Error (dataDispatcher String)) = .error panicMakechan :=
  ⟨(C18_newDataDispatcher (-1) maxChanCapacity).1.2 (by decide), by decide, by decide,
    (C18_newDataDispatcher 2 maxChanCapacity).2.1 (by decide) (by decide),
    (C18_newDataDispatcher 0 maxChanCapacity).2.1 (by decide) (by decide),
    by decide,
    (C18_newDataDispatcher 4611686018427387904 maxChanCapacity).2.2 (by decide) (by decide)⟩

/-! ### Document builder -/

/-- C19. `stringValueToBigInt` is defined on every string; on the base-10
rendering of an integer `n`, which the library parses back to `n`, it returns
`n`; on a string that the library does not parse as a base-10 integer it
returns zero. -/
theorem C19_stringValueToBigInt (setString : String → Nat → Option Int) (n : Int) (s : String)
    (hparse : setString (bigIntString n) 10 = some n) (hfail : setString s 10 = none) :
    stringValueToBigInt setString (bigIntString n) = n ∧
    stringValueToBigInt setString s = 0 := by
  constructor
  · simp only [stringValueToBigInt, hparse]
  · simp only [stringValueToBigInt, hfail]

/-- C19, at concrete inputs: the rendering of -42 and the string `12a`. -/
theorem C19_stringValueToBigInt_witness :
    bigIntString (-42) = "-42" ∧
    sampleSetString (bigIntString (-42)) 10 = some (-42) ∧
    sampleSetString "12a" 10 = none ∧
    stringValueToBigInt sampleSetString (bigIntString (-42)) = -42 ∧
    stringValueToBigInt sampleSetString "12a" = 0 :=
  ⟨by decide, by decide, by decide,
    C19_stringValueToBigInt sampleSetString (-42) "12a" (by decide) (by decide)⟩

/-- C20, as stated, fails: with a shard coordinator that puts the receiver in
shard 2 and a miniblock from shard 0 to shard 1, the document has the sender
shard 0 of the miniblock but the receiver shard 2 of the coordinator. -/
theorem C20_receiverShard_counterexample :
    (sampleProcessor.buildTransaction sampleRawTx [171] [205]
      { SenderShardID := 0, ReceiverShardID := 1 } { GetRound := 7, GetTimeStamp := 9 }
      "success").SenderShard = 0 ∧
    (sampleProcessor.buildTransaction sampleRawTx [171] [205]
      { SenderShardID := 0, ReceiverShardID := 1 } { GetRound := 7, GetTimeStamp := 9 }
      "success").ReceiverShard = 2 ∧
    (sampleProcessor.buildTransaction sampleRawTx [171] [205]
      { SenderShardID := 0, ReceiverShardID := 1 } { GetRound := 7, GetTimeStamp := 9 }
      "success").ReceiverShard
      ≠ ({ SenderShardID := 0, ReceiverShardID := 1 } : RawMiniBlock).ReceiverShardID := by
  refine ⟨rfl, rfl, ?_⟩
  decide

/-- C20, amended. The document returned by `buildTransaction` has the sender
shard of the owning miniblock, and as receiver shard the shard that the shard
coordinator computes for the receiver address of the transaction. -/
theorem C20_buildTransaction_shards (cm : commonProcessor) (tx : RawTransaction)
    (txHash mbHash : List UInt8) (mb : RawMiniBlock) (header : HeaderHandler)
    (txStatus : String) :
    (cm.buildTransaction tx txHash mbHash mb header txStatus).SenderShard = mb.SenderShardID ∧
    (cm.buildTransaction tx txHash mbHash mb header txStatus).ReceiverShard
      = cm.shardCoordinatorComputeId tx.RcvAddr :=
  ⟨rfl, rfl⟩

/-! ### Accounts -/

/-- The format of the index action line of an account, evaluated. -/
theorem sprintf_accountIndex (address : String) :
    Sprintf "\x7b \"index\" : \x7b \"_id\" : \"%s\" \x7d \x7d%s" [.str address, .str "\n"]
      = "\x7b \"index\" : \x7b \"_id\" : \"" ++ address ++ "\" \x7d \x7d\n" := by
  rfl

/-- The index action line of an account is not empty. -/
theorem accountIndex_size_ne_zero (address : String) :
    ("\x7b \"index\" : \x7b \"_id\" : \"" ++ address ++ "\" \x7d \x7d\n").utf8ByteSize ≠ 0 := by
  rw [utf8ByteSize_append, utf8ByteSize_append]
  have h1 : 0 < ("\x7b \"index\" : \x7b \"_id\" : \"" : String).utf8ByteSize := by decide
  omega

/-- A buffer that ends with a newline is not empty. -/
theorem append_newline_size_ne_zero (a b : String) :
    ((a ++ b) ++ "\n").utf8ByteSize ≠ 0 := by
  rw [utf8ByteSize_append]
  have h1 : ("\n" : String).utf8ByteSize = 1 := by decide
  omega

/-- C21. For an account map with the single entry `address`, `account`, whose
marshalling succeeds with `json`, `serializeAccounts` returns a nil error and
exactly one batch: the action line `{ "index" : { "_id" : "<address>" } }` with
its newline, followed by `json` and a newline. -/
theorem C21_single_account_batch {Account : Type} (env : Externals)
    (marshal : Account → Except Error String) (address : String) (account : Account)
    (json : String) (hm : marshal account = .ok json) :
    serializeAccounts env marshal [(address, account)]
      = (some ["\x7b \"index\" : \x7b \"_id\" : \"" ++ address ++ "\" \x7d \x7d\n" ++ json ++ "\n"],
         none) := by
  have hz : ("" : String).utf8ByteSize = 0 := rfl
  have hne := accountIndex_size_ne_zero address
  have hbuf : ("" ++ ("\x7b \"index\" : \x7b \"_id\" : \"" ++ address ++ "\" \x7d \x7d\n"))
      ++ (json ++ "\n")
      = "\x7b \"index\" : \x7b \"_id\" : \"" ++ address ++ "\" \x7d \x7d\n" ++ json ++ "\n" := by
    simp [String.append_assoc]
  have hne2 : ("\x7b \"index\" : \x7b \"_id\" : \"" ++ address ++ "\" \x7d \x7d\n" ++ json
      ++ "\n").utf8ByteSize ≠ 0 := append_newline_size_ne_zero _ _
  simp only [serializeAccounts, serializeAccounts.loop, prepareSerializedAccountInfo, hm,
    sprintf_accountIndex, beq_iff_eq, hne, if_false, hz, bne_self_eq_false, Bool.and_false,
    Bool.false_eq_true, hbuf]
  simp [hne2]

/-- C21, at a concrete input: the single history entry of the test, used here
as an account. -/
theorem C21_single_account_batch_witness :
    sampleMarshalHistory sampleHistory
      = .ok "\x7b\"address\":\"account1\",\"timestamp\":10,\"balance\":\"123\",\"token\":\"token-0001\"\x7d" ∧
    serializeAccounts sampleEnv sampleMarshalHistory [("addr1", sampleHistory)]
      = (some ["\x7b \"index\" : \x7b \"_id\" : \"" ++ "addr1" ++ "\" \x7d \x7d\n" ++
          "\x7b\"address\":\"account1\",\"timestamp\":10,\"balance\":\"123\",\"token\":\"token-0001\"\x7d"
          ++ "\n"], none) :=
  ⟨by decide, C21_single_account_batch sampleEnv sampleMarshalHistory "addr1" sampleHistory _
    (by decide)⟩

/-- C22. The action line of a history entry carries an `_id`: on the single
entry of `TestSerializeAccountsHistory`, `serializeAccountsHistory` returns one
batch whose action line is `{ "index" : { "_id" : "account1" } }`, which is not
the batch with the action line `{ "index" : { } }` that the test expects. -/
theorem C22_history_action_line_has_id :
    serializeAccountsHistory sampleEnv sampleMarshalHistory [("account1", sampleHistory)]
      = (some ["\x7b \"index\" : \x7b \"_id\" : \"account1\" \x7d \x7d\n\x7b\"address\":\"account1\",\"timestamp\":10,\"balance\":\"123\",\"token\":\"token-0001\"\x7d\n"],
         none) ∧
    serializeAccountsHistory sampleEnv sampleMarshalHistory [("account1", sampleHistory)]
      ≠ (some ["\x7b \"index\" : \x7b \x7d \x7d\n\x7b\"address\":\"account1\",\"timestamp\":10,\"balance\":\"123\",\"token\":\"token-0001\"\x7d\n"],
         none) := by
  constructor
  · set_option maxRecDepth 100000 in decide
  · set_option maxRecDepth 100000 in decide

/-- The loop of `serializeAccounts` returns a nil slice and a nil error as soon
as one entry cannot be marshalled, whatever the buffers hold. -/
theorem serializeAccounts_loop_failure {Account : Type} (env : Externals)
    (marshal : Account → Except Error String) :
    ∀ (accounts : List (String × Account)) (buff : String) (slice : List String),
      (∃ entry ∈ accounts, ∃ err, marshal entry.2 = .error err) →
      serializeAccounts.loop env marshal accounts buff slice = (none, none) := by
  intro accounts
  induction accounts with
  | nil =>
    intro buff slice h
    obtain ⟨entry, hmem, _⟩ := h
    exact absurd hmem (List.not_mem_nil entry)
  | cons head rest ih =>
    intro buff slice h
    obtain ⟨address, acc⟩ := head
    have hz : ("" : String).utf8ByteSize = 0 := rfl
    cases hm : marshal acc with
    | error err =>
      simp [serializeAccounts.loop, prepareSerializedAccountInfo, hm, hz]
    | ok json =>
      have hrest : ∃ entry ∈ rest, ∃ err, marshal entry.2 = .error err := by
        obtain ⟨entry, hmem, err, herr⟩ := h
        rcases List.mem_cons.1 hmem with h1 | h1
        · subst h1
          rw [hm] at herr
          exact absurd herr (by simp)
        · exact ⟨entry, h1, err, herr⟩
      have hne := accountIndex_size_ne_zero address
      simp only [serializeAccounts.loop, prepareSerializedAccountInfo, hm, sprintf_accountIndex,
        beq_iff_eq, hne, if_false]
      split
      · exact ih _ _ hrest
      · exact ih _ _ hrest

/-- The loop of `serializeAccountsHistory` returns a nil slice and a nil error
as soon as one entry cannot be marshalled, whatever the buffers hold. -/
theorem serializeAccountsHistory_loop_failure {Account : Type} (env : Externals)
    (marshal : Account → Except Error String) :
    ∀ (accounts : List (String × Account)) (buff : String) (slice : List String),
      (∃ entry ∈ accounts, ∃ err, marshal entry.2 = .error err) →
      serializeAccountsHistory.loop env marshal accounts buff slice = (none, none) := by
  intro accounts
  induction accounts with
  | nil =>
    intro buff slice h
    obtain ⟨entry, hmem, _⟩ := h
    exact absurd hmem (List.not_mem_nil entry)
  | cons head rest ih =>
    intro buff slice h
    obtain ⟨address, acc⟩ := head
    cases hm : marshal acc with
    | error err =>
      simp [serializeAccountsHistory.loop, prepareSerializedAccountBalanceHistory, hm]
    | ok json =>
      have hrest : ∃ entry ∈ rest, ∃ err, marshal entry.2 = .error err := by
        obtain ⟨entry, hmem, err, herr⟩ := h
        rcases List.mem_cons.1 hmem with h1 | h1
        · subst h1
          rw [hm] at herr
          exact absurd herr (by simp)
        · exact ⟨entry, h1, err, herr⟩
      simp only [serializeAccountsHistory.loop, prepareSerializedAccountBalanceHistory, hm,
        Option.isSome_none, Bool.false_eq_true, if_false]
      split
      · exact ih _ _ hrest
      · exact ih _ _ hrest

/-- C29. If the marshalling of some entry fails, `serializeAccounts` and
`serializeAccountsHistory` both return a nil slice of batches and a nil error:
the error of the marshaller is not returned, and nothing is returned of the
entries that were buffered before the failure. -/
theorem C29_account_failure_returns_nil_nil {Account : Type} (env : Externals)
    (marshal : Account → Except Error String) (accounts : List (String × Account))
    (hfail : ∃ entry ∈ accounts, ∃ err, marshal entry.2 = .error err) :
    serializeAccounts env marshal accounts = (none, none) ∧
    serializeAccountsHistory env marshal accounts = (none, none) :=
  ⟨serializeAccounts_loop_failure env marshal accounts "" [] hfail,
    serializeAccountsHistory_loop_failure env marshal accounts "" [] hfail⟩

/-- C29, at a concrete input: an entry that marshals, followed by one without
address, which does not. -/
theorem C29_account_failure_returns_nil_nil_witness :
    (∃ entry ∈ [("account1", sampleHistory), ("account2", { sampleHistory with Address := "" })],
      ∃ err, sampleMarshalHistory entry.2 = .error err) ∧
    serializeAccounts sampleEnv sampleMarshalHistory
      [("account1", sampleHistory), ("account2", { sampleHistory with Address := "" })]
      = (none, none) ∧
    serializeAccountsHistory sampleEnv sampleMarshalHistory
      [("account1", sampleHistory), ("account2", { sampleHistory with Address := "" })]
      = (none, none) :=
  have hfail : ∃ entry ∈ [("account1", sampleHistory),
      ("account2", { sampleHistory with Address := "" })],
      ∃ err, sampleMarshalHistory entry.2 = .error err :=
    ⟨("account2", { sampleHistory with Address := "" }), by simp,
      "json: unsupported value", by decide⟩
  ⟨hfail, C29_account_failure_returns_nil_nil sampleEnv sampleMarshalHistory _ hfail⟩

/-- The loop of `serializeBulkMiniBlocks` writes, in input order, what one pass
writes for each miniblock. -/
theorem foldl_step_eq_join (env : Externals) (hdrShardID : Nat) (existsInDb : BoolMap)
    (mbs : List Miniblock) :
    mbs.foldl (serializeBulkMiniBlocks.step env hdrShardID existsInDb) ""
      = String.join (mbs.map (serializeBulkMiniBlocks.step env hdrShardID existsInDb "")) := by
  induction mbs with
  | nil => rfl
  | cons mb rest ih =>
    rw [List.foldl_cons, foldl_step_append, ih, List.map_cons, join_cons]

/-- C30. If the existence oracle returns an error, `serializeBulkMiniBlocks`
returns an empty buffer and a fresh empty map, whatever the miniblocks; if the
oracle returns a map, that map is returned as it is and the buffer holds, in
input order, what is written for each miniblock. -/
theorem C30_miniblocks_oracle (env : Externals) (hdrShardID : Nat) (bulkMbs : List Miniblock)
    (oracle : List String → String → Except Error BoolMap) :
    (∀ err, oracle (bulkMbs.map (fun mb => mb.Hash)) miniblocksIndex = .error err →
      serializeBulkMiniBlocks env hdrShardID bulkMbs oracle = ("", BoolMap.empty)) ∧
    (∀ existsInDb, oracle (bulkMbs.map (fun mb => mb.Hash)) miniblocksIndex = .ok existsInDb →
      (serializeBulkMiniBlocks env hdrShardID bulkMbs oracle).2 = existsInDb ∧
      (serializeBulkMiniBlocks env hdrShardID bulkMbs oracle).1
        = String.join
            (bulkMbs.map (serializeBulkMiniBlocks.step env hdrShardID existsInDb ""))) := by
  constructor
  · intro err herr
    simp only [serializeBulkMiniBlocks, herr]
  · intro existsInDb hok
    refine ⟨?_, ?_⟩
    · simp only [serializeBulkMiniBlocks, hok]
    · simp only [serializeBulkMiniBlocks, hok]
      exact foldl_step_eq_join env hdrShardID existsInDb bulkMbs

/-- C30, at concrete inputs: an oracle that fails and the oracle `sampleOracle`,
on an indexed miniblock followed by a new one. -/
theorem C30_miniblocks_oracle_witness :
    serializeBulkMiniBlocks sampleEnv 0 [sampleMb "m1" 0, sampleMb "m2" 0]
        (fun _ _ => .error "no connection") = ("", BoolMap.empty) ∧
    (serializeBulkMiniBlocks sampleEnv 0 [sampleMb "m1" 0, sampleMb "m2" 0] sampleOracle).2
      = sampleExists ∧
    (serializeBulkMiniBlocks sampleEnv 0 [sampleMb "m1" 0, sampleMb "m2" 0] sampleOracle).1
      = String.join ([sampleMb "m1" 0, sampleMb "m2" 0].map
          (serializeBulkMiniBlocks.step sampleEnv 0 sampleExists "")) :=
  have h1 := (C30_miniblocks_oracle sampleEnv 0 [sampleMb "m1" 0, sampleMb "m2" 0]
    (fun _ _ => .error "no connection")).1 "no connection" rfl
  have h2 := (C30_miniblocks_oracle sampleEnv 0 [sampleMb "m1" 0, sampleMb "m2" 0]
    sampleOracle).2 sampleExists rfl
  ⟨h1, h2.1, h2.2⟩

/-! ### The three payload shapes -/

/-- The index action line and the update action line of a transaction differ. -/
theorem indexActionLine_ne_updateActionLine (h1 h2 : String) :
    indexActionLine h1 ≠ updateActionLine h2 := by
  intro h
  have e1 : ("\x7b \"index\" : \x7b \"_id\" : \"" : String)
      = "\x7b" ++ (" " ++ "\"index\" : \x7b \"_id\" : \"") := by decide
  have e2 : ("\x7b\"update\":\x7b\"_id\":\"" : String)
      = "\x7b" ++ ("\"" ++ "update\":\x7b\"_id\":\"") := by decide
  have hs : (" " : String).data = [' '] := rfl
  have hq : ("\"" : String).data = ['"'] := rfl
  simp only [indexActionLine, updateActionLine, e1, e2, String.append_assoc] at h
  have hd := congrArg String.data h
  simp only [String.data_append, hs, hq, List.append_cancel_left_eq, List.singleton_append,
    List.cons.injEq] at hd
  exact absurd hd.2.1 (by decide)

/-- C26. For a transaction that marshals and a shard `S`, the payload shape is
chosen by a total rule: the plain index when the transaction is intra-shard on
`S` or invalid; otherwise the field patch when its shards differ and `S` is
the receiver shard (its log, results and timestamp marshalling too); otherwise
the no-op upsert. The three shapes differ from one another, so exactly one is
produced. In particular the no-op upsert is produced when `S` is neither the
sender nor the receiver shard, and when sender and receiver shard are equal
but are not `S`. -/
theorem C26_payload_rule (env : Externals) (tx : Transaction) (S : Nat) (b : Bool) (m : String)
    (hm : env.marshalTx tx = .ok m) :
    (((tx.SenderShard = tx.ReceiverShard ∧ tx.ReceiverShard = S)
        ∨ tx.Status = env.txStatusInvalid) →
      prepareSerializedDataForATransaction env tx S b = .ok (indexActionLine tx.Hash, m)) ∧
    (¬ ((tx.SenderShard = tx.ReceiverShard ∧ tx.ReceiverShard = S)
        ∨ tx.Status = env.txStatusInvalid) →
      (tx.SenderShard ≠ tx.ReceiverShard ∧ tx.ReceiverShard = S) →
      ∀ l s t, env.marshalLog tx.Log = .ok l →
        env.marshalScResults tx.SmartContractResults = .ok s →
        env.marshalTimestamp tx.Timestamp = .ok t →
        prepareSerializedDataForATransaction env tx S b
          = .ok (updateActionLine tx.Hash,
              fieldPatchPayload tx.Status tx.MBHash l s t tx.GasUsed tx.Fee m)) ∧
    (¬ ((tx.SenderShard = tx.ReceiverShard ∧ tx.ReceiverShard = S)
        ∨ tx.Status = env.txStatusInvalid) →
      ¬ (tx.SenderShard ≠ tx.ReceiverShard ∧ tx.ReceiverShard = S) →
      prepareSerializedDataForATransaction env tx S b
        = .ok (updateActionLine tx.Hash, noOpUpsertPayload m)) ∧
    (tx.Status ≠ env.txStatusInvalid → tx.SenderShard ≠ S → tx.ReceiverShard ≠ S →
      prepareSerializedDataForATransaction env tx S b
        = .ok (updateActionLine tx.Hash, noOpUpsertPayload m)) ∧
    (tx.Status ≠ env.txStatusInvalid → tx.SenderShard = tx.ReceiverShard →
      tx.ReceiverShard ≠ S →
      prepareSerializedDataForATransaction env tx S b
        = .ok (updateActionLine tx.Hash, noOpUpsertPayload m)) ∧
    indexActionLine tx.Hash ≠ updateActionLine tx.Hash ∧
    (∀ l s t, noOpUpsertPayload m
      ≠ fieldPatchPayload tx.Status tx.MBHash l s t tx.GasUsed tx.Fee m) := by
  refine ⟨?_, ?_, ?_, ?_, ?_, indexActionLine_ne_updateActionLine _ _,
    fun l s t => noOp_ne_fieldPatch _ _ _ _ _ _ _ _ _⟩
  · intro h
    apply prepare_of_intraOrInvalid env tx S b m hm
    simpa [isIntraShardOrInvalid] using h
  · intro h1 h2 l s t hl hs ht
    apply prepare_of_destination env tx S b m l s t hm hl hs ht
    · simpa [isIntraShardOrInvalid] using h1
    · simpa [isCrossShardDstMe] using h2
  · intro h1 h2
    apply prepare_of_sender env tx S b m hm
    · simpa [isIntraShardOrInvalid] using h1
    · simpa [isCrossShardDstMe] using h2
  · intro hst hs hr
    apply prepare_of_sender env tx S b m hm
    · simp [isIntraShardOrInvalid, hst, hr]
    · simp [isCrossShardDstMe, hr]
  · intro hst heq hr
    apply prepare_of_sender env tx S b m hm
    · simp [isIntraShardOrInvalid, hst, hr]
    · simp [isCrossShardDstMe, heq]

/-- C26, at a concrete input: a successful transaction from shard 0 to shard 1,
serialised on shard 2, which is neither. -/
theorem C26_payload_rule_witness :
    sampleEnv.marshalTx (sampleTx "c26" "success" 0 1) = .ok "\x7b\"hash\":\"c26\"\x7d" ∧
    (sampleTx "c26" "success" 0 1).Status ≠ sampleEnv.txStatusInvalid ∧
    (sampleTx "c26" "success" 0 1).SenderShard ≠ 2 ∧
    (sampleTx "c26" "success" 0 1).ReceiverShard ≠ 2 ∧
    prepareSerializedDataForATransaction sampleEnv (sampleTx "c26" "success" 0 1) 2 false
      = .ok (updateActionLine "c26", noOpUpsertPayload "\x7b\"hash\":\"c26\"\x7d") :=
  ⟨by decide, by decide, by decide, by decide,
    (C26_payload_rule sampleEnv (sampleTx "c26" "success" 0 1) 2 false
      "\x7b\"hash\":\"c26\"\x7d" (by decide)).2.2.2.1 (by decide) (by decide) (by decide)⟩

/-! ### Back-off after other errors, and its range -/

/-- C27. When `Save` returns an error that is not the back-off error, the pass
of `doWork` sets the back-off to zero before the retry; a back-off failure that
follows at once sets it to the base of 10 s, whatever the back-off was before,
and `doWork` then sleeps 3 s and 10 s. -/
theorem C27_other_error_restarts_escalation {Item : Type} (d : dataDispatcher Item)
    (err : SaveError) (next : SaveError) (hother : err.isBackOff = false)
    (hnext : next.isBackOff = true) :
    (d.doWorkPass (some err)).1.backOffTime = 0 ∧
    ((d.doWorkPass (some err)).1.doWorkPass (some next)).1.backOffTime = backOffTime ∧
    backOffTime = 10 * timeSecond ∧
    d.doWork [some err, some next, none]
      = some { dispatcher := { d with backOffTime := 0 }, saveCalls := 3,
               sleeps := [durationBetweenErrorRetry, backOffTime] } := by
  have h1 : d.doWorkPass (some err)
      = ({ d with backOffTime := 0 }, some durationBetweenErrorRetry, true) := by
    simp [dataDispatcher.doWorkPass, errorsIsErrBackOff, hother]
  have h2 : ({ d with backOffTime := 0 } : dataDispatcher Item).doWorkPass (some next)
      = ({ d with backOffTime := backOffTime }, some backOffTime, true) := by
    simp [dataDispatcher.doWorkPass, errorsIsErrBackOff, hnext,
      dataDispatcher.increaseBackOffTime]
  have h3 : ({ d with backOffTime := backOffTime } : dataDispatcher Item).doWorkPass none
      = ({ d with backOffTime := 0 }, none, false) := by
    simp [dataDispatcher.doWorkPass, errorsIsErrBackOff]
  refine ⟨by rw [h1], by rw [h1, h2], by decide, ?_⟩
  simp [dataDispatcher.doWork, dataDispatcher.doWorkLoop, h1, h2, h3]

/-- C27, at a concrete input: a dispatcher whose back-off is 17.28 s. -/
theorem C27_other_error_restarts_escalation_witness :
    sampleFailure.isBackOff = false ∧ sampleBackOff.isBackOff = true ∧
    (({ sampleDispatcher with backOffTime := 17280000000 } : dataDispatcher String).doWorkPass
      (some sampleFailure)).1.backOffTime = 0 ∧
    ((({ sampleDispatcher with backOffTime := 17280000000 } : dataDispatcher String).doWorkPass
      (some sampleFailure)).1.doWorkPass (some sampleBackOff)).1.backOffTime = backOffTime :=
  have h := C27_other_error_restarts_escalation
    ({ sampleDispatcher with backOffTime := 17280000000 } : dataDispatcher String)
    sampleFailure sampleBackOff rfl rfl
  ⟨rfl, rfl, h.1, h.2.1⟩

/-- C28. In every reachable state of the dispatcher the back-off is zero or at
least the base of 10 s, and it is strictly below `maxBackOff + maxBackOff / 5`,
which is 6 minutes; once it is at or above `maxBackOff`, a further back-off
failure leaves it unchanged. -/
theorem C28_backoff_range {Item : Type} (d : dataDispatcher Item) (h : Reachable d) :
    (d.backOffTime = 0 ∨ backOffTime ≤ d.backOffTime) ∧
    d.backOffTime < maxBackOff + maxBackOff / 5 ∧
    maxBackOff + maxBackOff / 5 = 6 * timeMinute ∧
    (maxBackOff ≤ d.backOffTime →
      d.increaseBackOffTime.backOffTime = d.backOffTime ∧
      ∀ err, errorsIsErrBackOff err = true →
        (d.doWorkPass err).1.backOffTime = d.backOffTime) := by
  have hc := backOff_constants
  have hsum : maxBackOff + maxBackOff / 5 = 360000000000 := by decide
  have hinv : d.backOffTime = 0 ∨ (10000000000 ≤ d.backOffTime ∧ d.backOffTime < 360000000000) := by
    refine reachable_induction
      (fun b => b = 0 ∨ (10000000000 ≤ b ∧ b < 360000000000)) (Or.inl rfl) ?_ d h
    intro e he
    rcases he with he | ⟨he1, he2⟩
    · rw [increaseBackOffTime_of_zero e he, hc.1]
      exact Or.inr ⟨le_refl _, by decide⟩
    · by_cases hge : e.backOffTime ≥ maxBackOff
      · rw [increaseBackOffTime_of_ge e (by omega) hge]
        exact Or.inr ⟨he1, he2⟩
      · rw [increaseBackOffTime_of_pos e (by omega) (by omega)]
        rw [hc.2] at hge
        exact Or.inr ⟨by omega, by omega⟩
  refine ⟨?_, ?_, by decide, ?_⟩
  · rw [hc.1]
    rcases hinv with h0 | ⟨h1, _⟩
    · exact Or.inl h0
    · exact Or.inr h1
  · rw [hsum]
    rcases hinv with h0 | ⟨_, h2⟩
    · rw [h0]
      decide
    · exact h2
  · intro hge
    have hne : d.backOffTime ≠ 0 := by
      rw [hc.2] at hge
      omega
    have hinc := increaseBackOffTime_of_ge d hne hge
    refine ⟨hinc, ?_⟩
    intro err herr
    rw [doWorkPass_backOff d err herr]
    exact hinc

/-- C28, at a concrete input: the state after twenty consecutive back-off failures. -/
theorem C28_backoff_range_witness :
    Reachable (dataDispatcher.increaseBackOffTime^[20] sampleDispatcher) ∧
    (dataDispatcher.increaseBackOffTime^[20] sampleDispatcher).backOffTime
      < maxBackOff + maxBackOff / 5 :=
  have hr : Reachable (dataDispatcher.increaseBackOffTime^[20] sampleDispatcher) :=
    reachable_iterate sampleDispatcher (Reachable.new 2 maxChanCapacity sampleDispatcher rfl) 20
  ⟨hr, (C28_backoff_range (dataDispatcher.increaseBackOffTime^[20] sampleDispatcher) hr).2.1⟩

/-! ### Order of the work items -/

/-- A call of `Add` that returns keeps the order of a run. -/
theorem ordered_add {Item : Type} (run : DispatcherRun Item) (item : Option Item)
    (d1 : dataDispatcher Item) (hadd : run.dispatcher.Add item = some d1)
    (h : run.Ordered) :
    DispatcherRun.Ordered
      { run with dispatcher := d1, enqueued := run.enqueued ++ item.toList } := by
  obtain ⟨h1, h2, counts, m, hlen, hpos, hlog⟩ := h
  cases item with
  | none =>
    simp only [dataDispatcher.Add, Option.some.injEq] at hadd
    subst hadd
    exact ⟨by simpa using h1, h2, counts, m, hlen, hpos, hlog⟩
  | some wi =>
    rcases add_cases _ d1 wi hadd with ⟨hw, hd1⟩ | ⟨hne, _, hd1⟩
    · subst hd1
      have hc := h2 hw
      simp only [dataDispatcher.pendingItems, dataDispatcher.workingItems, hw, hc,
        List.append_nil] at h1
      simp only [dataDispatcher.workingItems, hw, List.map_nil, List.flatten_nil,
        List.append_nil] at hlog
      refine ⟨?_, ?_, counts, 0, hlen, hpos, ?_⟩
      · simp [dataDispatcher.pendingItems, dataDispatcher.workingItems, hc, h1]
      · intro hwait
        exact absurd hwait (by simp)
      · simp [dataDispatcher.workingItems, hlog]
    · subst hd1
      refine ⟨?_, ?_, counts, m, hlen, hpos, ?_⟩
      · rw [← h1]
        simp [dataDispatcher.pendingItems, dataDispatcher.workingItems]
      · intro hwait
        exact absurd hwait hne
      · rw [hlog]
        rfl

/-- The `select` of a worker at the top of its loop keeps the order of a run. -/
theorem ordered_select {Item : Type} (run : DispatcherRun Item)
    (hready : run.dispatcher.worker = .ready) (h : run.Ordered) :
    DispatcherRun.Ordered { run with dispatcher := run.dispatcher.startWorkerSelect } := by
  obtain ⟨h1, _, counts, m, hlen, hpos, hlog⟩ := h
  simp only [dataDispatcher.pendingItems, dataDispatcher.workingItems, hready,
    List.nil_append] at h1
  simp only [dataDispatcher.workingItems, hready, List.map_nil, List.flatten_nil,
    List.append_nil] at hlog
  cases hc : run.dispatcher.chanWorkItems with
  | nil =>
    have hs : run.dispatcher.startWorkerSelect
        = { run.dispatcher with worker := .waiting } := by
      simp only [dataDispatcher.startWorkerSelect, hready, hc]
    rw [hs]
    refine ⟨?_, fun _ => hc, counts, 0, hlen, hpos, ?_⟩
    · simp [dataDispatcher.pendingItems, dataDispatcher.workingItems, h1]
    · simp [dataDispatcher.workingItems, hlog]
  | cons wi rest =>
    have hs : run.dispatcher.startWorkerSelect
        = { run.dispatcher with chanWorkItems := rest, worker := .working wi } := by
      simp only [dataDispatcher.startWorkerSelect, hready, hc]
    rw [hs]
    refine ⟨?_, ?_, counts, 0, hlen, hpos, ?_⟩
    · rw [← h1, hc]
      simp [dataDispatcher.pendingItems, dataDispatcher.workingItems]
    · intro hwait
      exact absurd hwait (by simp)
    · simp [dataDispatcher.workingItems, hlog]

/-- The return of the worker keeps the order of a run. -/
theorem ordered_done {Item : Type} (run : DispatcherRun Item) (h : run.Ordered) :
    DispatcherRun.Ordered { run with dispatcher := run.dispatcher.startWorkerDone } := by
  obtain ⟨h1, h2, counts, m, hlen, hpos, hlog⟩ := h
  cases hw : run.dispatcher.worker with
  | ready =>
    have hs : run.dispatcher.startWorkerDone = { run.dispatcher with worker := .stopped } := by
      simp only [dataDispatcher.startWorkerDone, hw]
    rw [hs]
    simp only [dataDispatcher.pendingItems, dataDispatcher.workingItems, hw] at h1 hlog
    exact ⟨h1, fun hwait => absurd hwait (by simp), counts, m, hlen, hpos, hlog⟩
  | waiting =>
    have hs : run.dispatcher.startWorkerDone = { run.dispatcher with worker := .stopped } := by
      simp only [dataDispatcher.startWorkerDone, hw]
    rw [hs]
    simp only [dataDispatcher.pendingItems, dataDispatcher.workingItems, hw] at h1 hlog
    exact ⟨h1, fun hwait => absurd hwait (by simp), counts, m, hlen, hpos, hlog⟩
  | working wi =>
    have hs : run.dispatcher.startWorkerDone = run.dispatcher := by
      simp only [dataDispatcher.startWorkerDone, hw]
    rw [hs]
    exact ⟨h1, h2, counts, m, hlen, hpos, hlog⟩
  | stopped =>
    have hs : run.dispatcher.startWorkerDone = run.dispatcher := by
      simp only [dataDispatcher.startWorkerDone, hw]
    rw [hs]
    exact ⟨h1, h2, counts, m, hlen, hpos, hlog⟩

/-- A call of `Save` by the worker inside `doWork` keeps the order of a run:
the call is one more of the calls on the item the worker holds, and that item
is handled when `doWork` returns. -/
theorem ordered_save {Item : Type} (run : DispatcherRun Item) (wi : Item)
    (err : Option SaveError) (hwork : run.dispatcher.worker = .working wi)
    (h : run.Ordered) :
    DispatcherRun.Ordered
      { dispatcher := run.dispatcher.workerSave err
        enqueued := run.enqueued
        handled :=
          if (run.dispatcher.doWorkPass err).2.2 then run.handled else run.handled ++ [wi]
        saveLog := run.saveLog ++ [wi] } := by
  obtain ⟨h1, _, counts, m, hlen, hpos, hlog⟩ := h
  simp only [dataDispatcher.pendingItems, dataDispatcher.workingItems, hwork] at h1
  simp only [dataDispatcher.workingItems, hwork, List.map_cons, List.map_nil,
    List.flatten_cons, List.flatten_nil, List.append_nil] at hlog
  have hchan := doWorkPass_chan run.dispatcher err
  have hwk := doWorkPass_worker run.dispatcher err
  rcases hp : run.dispatcher.doWorkPass err with ⟨d1, slept, cont⟩
  rw [hp] at hchan hwk
  simp only at hchan hwk
  cases cont with
  | true =>
    have hs : run.dispatcher.workerSave err = d1 := by
      simp only [dataDispatcher.workerSave, hwork, hp]
    rw [hs]
    refine ⟨?_, ?_, counts, m + 1, hlen, hpos, ?_⟩
    · rw [← h1]
      simp [dataDispatcher.pendingItems, dataDispatcher.workingItems, hwk, hwork, hchan]
    · intro hwait
      rw [hwk, hwork] at hwait
      exact absurd hwait (by simp)
    · simp [dataDispatcher.workingItems, hwk, hwork, hlog, List.replicate_succ']
  | false =>
    have hs : run.dispatcher.workerSave err = { d1 with worker := .ready } := by
      simp only [dataDispatcher.workerSave, hwork, hp]
    rw [hs]
    refine ⟨?_, ?_, counts ++ [m + 1], 0, ?_, ?_, ?_⟩
    · rw [← h1]
      simp [dataDispatcher.pendingItems, dataDispatcher.workingItems, hchan]
    · intro hwait
      exact absurd hwait (by simp)
    · simp [hlen]
    · intro n hn
      rcases List.mem_append.1 hn with hn | hn
      · exact hpos n hn
      · rw [List.mem_singleton] at hn
        omega
    · simp only [dataDispatcher.workingItems, List.map_nil, List.flatten_nil, List.append_nil,
        Bool.false_eq_true, if_false]
      rw [List.zipWith_append _ _ _ _ _ hlen, List.flatten_append, hlog]
      simp [List.replicate_succ']

/-- Along a run the order is kept and the enqueued items grow by the items
that the calls of `Add` hand over. -/
theorem runDispatcher_ordered {Item : Type} (events : List (DispatcherEvent Item)) :
    ∀ (start run : DispatcherRun Item), runDispatcher events start = some run →
      start.Ordered →
      run.Ordered ∧ run.enqueued = start.enqueued ++ addedItems events := by
  induction events with
  | nil =>
    intro start run h hord
    simp only [runDispatcher, Option.some.injEq] at h
    subst h
    exact ⟨hord, by simp [addedItems]⟩
  | cons event rest ih =>
    intro start run h hord
    cases event with
    | add item =>
      rw [runDispatcher] at h
      cases hadd : start.dispatcher.Add item with
      | none =>
        rw [hadd] at h
        exact absurd h (by simp)
      | some d1 =>
        rw [hadd] at h
        obtain ⟨h1, h2⟩ := ih _ run h (ordered_add start item d1 hadd hord)
        refine ⟨h1, ?_⟩
        rw [h2]
        simp [addedItems, List.append_assoc]
    | select =>
      rw [runDispatcher] at h
      cases hw : start.dispatcher.worker with
      | ready =>
        rw [hw] at h
        obtain ⟨h1, h2⟩ := ih _ run h (ordered_select start hw hord)
        exact ⟨h1, by rw [h2]; simp [addedItems]⟩
      | waiting =>
        rw [hw] at h
        exact absurd h (by simp)
      | working wi =>
        rw [hw] at h
        exact absurd h (by simp)
      | stopped =>
        rw [hw] at h
        exact absurd h (by simp)
    | done =>
      rw [runDispatcher] at h
      obtain ⟨h1, h2⟩ := ih _ run h (ordered_done start hord)
      exact ⟨h1, by rw [h2]; simp [addedItems]⟩
    | save err =>
      rw [runDispatcher] at h
      cases hw : start.dispatcher.worker with
      | working wi =>
        rw [hw] at h
        obtain ⟨h1, h2⟩ := ih _ run h (ordered_save start wi err hw hord)
        exact ⟨h1, by rw [h2]; simp [addedItems]⟩
      | ready =>
        rw [hw] at h
        exact absurd h (by simp)
      | waiting =>
        rw [hw] at h
        exact absurd h (by simp)
      | stopped =>
        rw [hw] at h
        exact absurd h (by simp)

/-- A run over two sequences of events, one after the other, passes through
the run over the first. -/
theorem runDispatcher_append {Item : Type} (pre post : List (DispatcherEvent Item)) :
    ∀ (start run : DispatcherRun Item), runDispatcher (pre ++ post) start = some run →
      ∃ mid : DispatcherRun Item,
        runDispatcher pre start = some mid ∧ runDispatcher post mid = some run := by
  induction pre with
  | nil =>
    intro start run h
    exact ⟨start, rfl, h⟩
  | cons event rest ih =>
    intro start run h
    rw [List.cons_append] at h
    cases event with
    | add item =>
      rw [runDispatcher] at h ⊢
      cases hadd : start.dispatcher.Add item with
      | none =>
        rw [hadd] at h
        exact absurd h (by simp)
      | some d1 =>
        rw [hadd] at h
        exact ih _ run h
    | select =>
      rw [runDispatcher] at h ⊢
      cases hw : start.dispatcher.worker with
      | ready =>
        rw [hw] at h
        exact ih _ run h
      | waiting =>
        rw [hw] at h
        exact absurd h (by simp)
      | working wi =>
        rw [hw] at h
        exact absurd h (by simp)
      | stopped =>
        rw [hw] at h
        exact absurd h (by simp)
    | done =>
      rw [runDispatcher] at h ⊢
      exact ih _ run h
    | save err =>
      rw [runDispatcher] at h ⊢
      cases hw : start.dispatcher.worker with
      | working wi =>
        rw [hw] at h
        exact ih _ run h
      | ready =>
        rw [hw] at h
        exact absurd h (by simp)
      | waiting =>
        rw [hw] at h
        exact absurd h (by simp)
      | stopped =>
        rw [hw] at h
        exact absurd h (by simp)

/-- C25. In every run of a dispatcher and its worker from a new dispatcher, of
any capacity, zero included: the enqueued items are the non-nil items of the
calls of `Add` that returned, in the order of the calls; the items on which
`doWork` has returned, then the item the worker holds, then the buffer of the
channel are exactly the enqueued items, in that order; the invocations of
`Save` come in one block for each handled item, in that same order and each
block with at least one invocation, followed by the invocations on the item the
worker holds; and whenever `Save` is invoked, it is invoked on the oldest
enqueued item on which `doWork` has not returned, `doWork` having returned on
every item enqueued before it. -/
theorem C25_items_handled_in_order {Item : Type} (events : List (DispatcherEvent Item))
    (cacheSize chanLimit : Int) (d0 : dataDispatcher Item) (run : DispatcherRun Item)
    (hnew : NewDataDispatcher cacheSize chanLimit = .ok d0)
    (hrun : runDispatcher events
      { dispatcher := d0, enqueued := [], handled := [], saveLog := [] } = some run) :
    run.enqueued = addedItems events ∧
    run.handled ++ run.dispatcher.pendingItems = run.enqueued ∧
    (∃ (counts : List Nat) (m : Nat), counts.length = run.handled.length ∧
      (∀ n ∈ counts, 1 ≤ n) ∧
      run.saveLog = (List.zipWith List.replicate counts run.handled).flatten
        ++ (run.dispatcher.workingItems.map (List.replicate m)).flatten) ∧
    (∀ (pre post : List (DispatcherEvent Item)) (err : Option SaveError),
      events = pre ++ .save err :: post →
      ∃ (mid : DispatcherRun Item) (wi : Item),
        runDispatcher pre
          { dispatcher := d0, enqueued := [], handled := [], saveLog := [] } = some mid ∧
        mid.dispatcher.worker = .working wi ∧
        mid.enqueued = addedItems pre ∧
        mid.enqueued = mid.handled ++ wi :: mid.dispatcher.chanWorkItems) := by
  have hstart : DispatcherRun.Ordered
      ({ dispatcher := d0, enqueued := [], handled := [], saveLog := [] } :
        DispatcherRun Item) := by
    unfold NewDataDispatcher at hnew
    split at hnew
    · exact absurd hnew (by simp)
    · split at hnew
      · exact absurd hnew (by simp)
      · injection hnew with hnew
        subst hnew
        exact ⟨rfl, fun _ => rfl, [], 0, rfl, by simp, rfl⟩
  obtain ⟨⟨h1, _, h3⟩, h4⟩ := runDispatcher_ordered events _ run hrun hstart
  refine ⟨by simpa using h4, h1, h3, ?_⟩
  intro pre post err hsplit
  subst hsplit
  obtain ⟨mid, hpre, hpost⟩ := runDispatcher_append pre (.save err :: post) _ run hrun
  obtain ⟨⟨hm1, _, _⟩, hm4⟩ := runDispatcher_ordered pre _ mid hpre hstart
  rw [runDispatcher] at hpost
  cases hw : mid.dispatcher.worker with
  | working wi =>
    refine ⟨mid, wi, hpre, hw, by simpa using hm4, ?_⟩
    rw [← hm1]
    simp [dataDispatcher.pendingItems, dataDispatcher.workingItems, hw]
  | ready =>
    rw [hw] at hpost
    exact absurd hpost (by simp)
  | waiting =>
    rw [hw] at hpost
    exact absurd hpost (by simp)
  | stopped =>
    rw [hw] at hpost
    exact absurd hpost (by simp)

/-- C25, at a concrete input: a run on a channel of capacity 0, in which `a`
and `b` are handled, `a` after one back-off failure, and `c` is held by the
worker. -/
theorem C25_items_handled_in_order_witness :
    (NewDataDispatcher 0 maxChanCapacity : Except Error (dataDispatcher String))
      = .ok { backOffTime := 0, chanWorkItems := [], chanCapacity := 0 } ∧
    runDispatcher sampleEvents
        { dispatcher := { backOffTime := 0, chanWorkItems := [], chanCapacity := 0 },
          enqueued := [], handled := [], saveLog := [] }
      = some { dispatcher := { backOffTime := 0, chanWorkItems := [], chanCapacity := 0,
                               worker := .working "c" },
               enqueued := ["a", "b", "c"], handled := ["a", "b"],
               saveLog := ["a", "a", "b"] } ∧
    addedItems sampleEvents = ["a", "b", "c"] ∧
    (["a", "b"] : List String)
      ++ ({ backOffTime := 0, chanWorkItems := [], chanCapacity := 0,
            worker := .working "c" } : dataDispatcher String).pendingItems
      = ["a", "b", "c"] :=
  have hrun : runDispatcher sampleEvents
      { dispatcher := { backOffTime := 0, chanWorkItems := [], chanCapacity := 0 },
        enqueued := [], handled := [], saveLog := [] }
      = some { dispatcher := { backOffTime := 0, chanWorkItems := [], chanCapacity := 0,
                               worker := .working "c" },
               enqueued := ["a", "b", "c"], handled := ["a", "b"],
               saveLog := ["a", "a", "b"] } := by
    set_option maxRecDepth 100000 in decide
  have h := C25_items_handled_in_order sampleEvents 0 maxChanCapacity _ _ rfl hrun
  ⟨rfl, hrun, h.1.symm, h.2.1⟩

/-- A run on a channel of capacity 2: the item `c` is added while the worker is
inside `doWork` on `a`, and `Save` is invoked on `a` twice and then on `b`. -/
theorem sampleBufferedEvents_run :
    runDispatcher sampleBufferedEvents
        { dispatcher := sampleDispatcher, enqueued := [], handled := [], saveLog := [] }
      = some { dispatcher := { backOffTime := 0, chanWorkItems := ["c"], chanCapacity := 2 },
               enqueued := ["a", "b", "c"], handled := ["a", "b"],
               saveLog := ["a", "a", "b"] } := by
  set_option maxRecDepth 100000 in decide

/-! ### Gas used of the documents -/

/-- The receipts change nothing of a document but its gas used. -/
theorem applyReceipts_fields (refundGasMessage : String)
    (otherReceipt : Receipt → Transaction → Int) (receipts : List Receipt) :
    ∀ doc : Transaction,
      (applyReceipts refundGasMessage otherReceipt receipts doc).GasLimit = doc.GasLimit ∧
      (applyReceipts refundGasMessage otherReceipt receipts doc).Hash = doc.Hash ∧
      (applyReceipts refundGasMessage otherReceipt receipts doc).Status = doc.Status := by
  induction receipts with
  | nil =>
    intro doc
    exact ⟨rfl, rfl, rfl⟩
  | cons receipt rest ih =>
    intro doc
    simp only [applyReceipts, List.foldl_cons]
    split
    · exact ih _
    · exact ih _

/-- C23. For every transaction of an invalid miniblock that is found in the
pool, `prepareTransactionsForDatabase` produces a document with its hash and
the invalid status whose gas used is the gas limit of the ledger transaction,
whatever the fee oracle returns and whatever receipts reference it. -/
theorem C23_invalid_gasUsed_is_gasLimit (cm : commonProcessor) (env : Externals)
    (refundGasMessage : String) (otherReceipt : Receipt → Transaction → Int)
    (ordinaryStatus : String) (mbHashOf : BodyMiniBlock → List UInt8)
    (body : List BodyMiniBlock) (header : HeaderHandler) (pool : Pool)
    (mb : BodyMiniBlock) (hash : List UInt8) (tx : RawTransaction)
    (hmb : mb ∈ body) (hfamily : mb.family = .invalid) (hhash : hash ∈ mb.TxHashes)
    (hpool : pool.invalid.lookup hash = some tx) :
    ∃ doc ∈ prepareTransactionsForDatabase cm env refundGasMessage otherReceipt ordinaryStatus
        mbHashOf body header pool,
      doc.Hash = hexEncodeToString hash ∧ doc.Status = env.txStatusInvalid ∧
      doc.GasLimit = tx.GasLimit ∧ doc.GasUsed = tx.GasLimit := by
  have hf := applyReceipts_fields refundGasMessage otherReceipt pool.receipts
    (cm.buildTransaction tx hash (mbHashOf mb) mb.shards header env.txStatusInvalid)
  refine ⟨{ applyReceipts refundGasMessage otherReceipt pool.receipts
      (cm.buildTransaction tx hash (mbHashOf mb) mb.shards header env.txStatusInvalid) with
      GasUsed := (applyReceipts refundGasMessage otherReceipt pool.receipts
        (cm.buildTransaction tx hash (mbHashOf mb) mb.shards header
          env.txStatusInvalid)).GasLimit }, ?_, hf.2.1, hf.2.2, hf.1, hf.1⟩
  unfold prepareTransactionsForDatabase
  rw [List.mem_flatten]
  refine ⟨_, List.mem_map.2 ⟨mb, hmb, rfl⟩, ?_⟩
  simp only [hfamily]
  rw [List.mem_filterMap]
  exact ⟨hash, hhash, by rw [hpool]; rfl⟩

/-- C23, at a concrete input: the invalid transaction of the test, with a gas
limit of 100, a receipt of value 100 and a fee oracle that answers 7. -/
theorem C23_invalid_gasUsed_is_gasLimit_witness :
    (sampleBody.head?.map (fun mb => mb.family)) = some MiniBlockFamily.invalid ∧
    samplePool.invalid.lookup [1] = some sampleInvalidRawTx ∧
    ∃ doc ∈ prepareTransactionsForDatabase
        { sampleProcessor with txFeeCalculatorComputeGasLimit := fun _ => 7 } sampleEnv
        "refund" (fun receipt tx => receipt.Value / tx.GasPrice) "success" (fun _ => [9])
        sampleBody { GetRound := 1, GetTimeStamp := 2 } samplePool,
      doc.Hash = hexEncodeToString [1] ∧ doc.Status = sampleEnv.txStatusInvalid ∧
      doc.GasLimit = sampleInvalidRawTx.GasLimit ∧ doc.GasUsed = sampleInvalidRawTx.GasLimit :=
  ⟨by decide, by decide,
    C23_invalid_gasUsed_is_gasLimit
      { sampleProcessor with txFeeCalculatorComputeGasLimit := fun _ => 7 } sampleEnv
      "refund" (fun receipt tx => receipt.Value / tx.GasPrice) "success" (fun _ => [9])
      sampleBody { GetRound := 1, GetTimeStamp := 2 } samplePool
      { shards := { SenderShardID := 0, ReceiverShardID := 0 }, family := .invalid,
        TxHashes := [[1]] } [1] sampleInvalidRawTx
      (by simp [sampleBody]) rfl (by simp) (by decide)⟩

/-- C24. For a document with a gas price that is not zero and a receipt whose
data is the refund marker, `getGasUsedFromReceipt` returns the gas limit minus
the integer quotient of the value of the receipt by the gas price, the
quotient `q` being the integer with `q * price <= value < (q + 1) * price`. -/
theorem C24_refund_receipt_gas (refundGasMessage : String)
    (otherReceipt : Receipt → Transaction → Int) (receipt : Receipt) (tx : Transaction)
    (hprice : tx.GasPrice ≠ 0) (hdata : receipt.Data = refundGasMessage) :
    getGasUsedFromReceipt refundGasMessage otherReceipt receipt tx
      = (tx.GasLimit : Int) - receipt.Value / (tx.GasPrice : Int) ∧
    receipt.Value / (tx.GasPrice : Int) * (tx.GasPrice : Int) ≤ receipt.Value ∧
    receipt.Value < (receipt.Value / (tx.GasPrice : Int) + 1) * (tx.GasPrice : Int) := by
  have hpos : (0 : Int) < (tx.GasPrice : Int) := by
    have := Nat.pos_of_ne_zero hprice
    exact_mod_cast this
  refine ⟨by simp [getGasUsedFromReceipt, hdata], Int.ediv_mul_le _ (ne_of_gt hpos),
    Int.lt_ediv_add_one_mul_self _ hpos⟩

/-- C24, at a concrete input: gas limit 10000, gas price 1000 and a receipt of
value 10000 give 9990. -/
theorem C24_refund_receipt_gas_witness :
    ({ sampleTx "tx-hash" "success" 0 0 with GasPrice := 1000, GasLimit := 10000 } :
      Transaction).GasPrice ≠ 0 ∧
    getGasUsedFromReceipt "refund" (fun receipt tx => receipt.Value / tx.GasPrice)
      { Value := 10000, Data := "refund", TxHash := [] }
      { sampleTx "tx-hash" "success" 0 0 with GasPrice := 1000, GasLimit := 10000 }
      = 9990 :=
  ⟨by decide,
    (C24_refund_receipt_gas "refund" (fun receipt tx => receipt.Value / tx.GasPrice)
      { Value := 10000, Data := "refund", TxHash := [] }
      { sampleTx "tx-hash" "success" 0 0 with GasPrice := 1000, GasLimit := 10000 }
      (by decide) rfl).1.trans (by decide)⟩

end Indexer
